import Mathlib

/-!
Verification of the tile-grid compositor / randomizer and the interactive
resize and drag-snap protocol of Reggie Next's `levelitems.py`
(`ObjectItem` / `LevelEditorItem`).

The Python code is shallowly embedded:
* `self.objdata` is a `List (List Int)` (`Grid`); Python ints are `Int`,
  `v & 0xFF` is `low8`.
* the external collaborators (`RenderObject` from `tiles`, the metadata
  tables in `globals_`, `random.choice`) are packaged in an `Env` record;
  `random.choice` becomes an arbitrary `pick` function constrained by
  `PickOK` (membership in the candidate list), so theorems quantify over
  every possible random outcome.
* in-place index assignment becomes `setCell` (out-of-range writes are a
  no-op here whereas Python would raise; the algorithms only write
  in-range cells, which the shape lemmas make precise).
-/

namespace Reggie

/-- A 2D buffer of composited tile indices, `self.objdata`. -/
abbrev Grid := List (List Int)

/-- `v & 0xFF`: the low byte of a stored tile value (Python's `&` on a
possibly negative int, i.e. value mod 256). -/
def low8 (v : Int) : Nat := (v % 256).toNat

/-- `self.objdata[y][x]` (reads out of range give a default, the code only
reads in-range cells). -/
def getCell (g : Grid) (y x : Nat) : Int := (g.getD y []).getD x 0

/-- `self.objdata[y][x] = v`. -/
def setCell (g : Grid) (y x : Nat) (v : Int) : Grid :=
  g.set y ((g.getD y []).set x v)

/-- One entry of `globals_.TilesetInfo[name]`: `[tiles, direction, special]`. -/
structure TileMeta where
  tiles : List Nat
  direction : Nat
  special : Nat

/-- The external collaborators consumed by the compositor:
* `tilesetName ts`: the display name derived from
  `globals_.TilesetFilesLoaded[ts]` (`none` when the file is `None`);
  names are coded as naturals.
* `tilesetInfo name`: `globals_.TilesetInfo[name]` as a per-tile lookup
  (`none` models both `TilesetInfo is None` and `name not in TilesetInfo`,
  which the code treats identically: exit without randomising).
* `objDefFirstRaw ts ty`: `globals_.ObjectDefinitions[ts][ty].rows[0][0][1]`;
  `none` models every `None`/length-1 case of the nine-way guard chain.
* `render ts ty w h`: `RenderObject` from `tiles` (outside this module),
  treated as an opaque pure function.
* `pick`: `random.choice`. -/
structure Env where
  tilesetName : Nat → Option Nat
  tilesetInfo : Nat → Option (Nat → Option TileMeta)
  objDefFirstRaw : Nat → Nat → Option Int
  render : Nat → Nat → Nat → Nat → Grid
  pick : List Nat → Nat

/-- `random.choice` returns an element of a nonempty list. -/
def PickOK (env : Env) : Prop := ∀ l : List Nat, l ≠ [] → env.pick l ∈ l

/-- `RenderObject ts ty w h` produces `h` rows of `w` tiles each. -/
def GridShape (g : Grid) (w h : Nat) : Prop :=
  g.length = h ∧ ∀ row ∈ g, row.length = w

/-- The external render primitive always produces a grid of the requested
shape. -/
def RenderOK (env : Env) : Prop :=
  ∀ ts ty w h, GridShape (env.render ts ty w h) w h

/-- The candidate filtering of `ObjectItem.randomise`: copy `tiles`, then
`remove` (first occurrence, absence ignored) the left neighbour's low byte
when `direction & 0b01` and `x > 0`, then the top neighbour's when
`direction & 0b10` and `y > 0`. -/
def filterCands (meta : TileMeta) (g : Grid) (y x : Nat) : List Nat :=
  let t1 := if meta.direction &&& 1 ≠ 0 ∧ 0 < x then
      meta.tiles.erase (low8 (getCell g y (x - 1)))
    else meta.tiles
  if meta.direction &&& 2 ≠ 0 ∧ 0 < y then
    t1.erase (low8 (getCell g (y - 1) x))
  else t1

/-- The body of the double loop of `ObjectItem.randomise` for one cell
`(y, x)`: look the tile up, skip top halves (`special & 0b01`), filter the
candidates, fall back to the unfiltered list if the filter emptied it,
store `(tileset << 8) | choice`, and for bottom halves (`special & 0b10`)
overwrite the cell above with `choice - 0x10` when a row above exists. -/
def randomiseCell (env : Env) (tileset : Nat) (tbl : Nat → Option TileMeta)
    (g : Grid) (y x : Nat) : Grid :=
  match tbl (low8 (getCell g y x)) with
  | none => g
  | some meta =>
    if meta.special &&& 1 ≠ 0 then g
    else
      let cands := filterCands meta g y x
      let cands := if cands = [] then meta.tiles else cands
      let choice : Int := ((tileset <<< 8) ||| env.pick cands : Nat)
      let g1 := setCell g y x choice
      if meta.special &&& 2 ≠ 0 ∧ 0 < y then
        setCell g1 (y - 1) x (choice - 16)
      else g1

/-- `ObjectItem.randomise(startx, starty, width, height)`: after the
metadata guard chain, randomise the sub-rectangle row-major (`y` outer,
`x` inner). -/
def randomise (env : Env) (tileset ty : Nat) (startx starty width height : Nat)
    (g : Grid) : Grid :=
  match env.objDefFirstRaw tileset ty, env.tilesetName tileset with
  | some _, some nm =>
    match env.tilesetInfo nm with
    | some tbl =>
      (List.range height).foldl (fun gy dy =>
        (List.range width).foldl (fun gx dx =>
          randomiseCell env tileset tbl gx (starty + dy) (startx + dx)) gy) g
    | none => g
  | _, _ => g

/-- The state of one `ObjectItem` relevant to the tile-grid compositor. -/
structure Obj where
  tileset : Nat
  type : Nat
  width : Nat
  height : Nat
  objdata : Grid

/-- `ObjectItem.updateObjCache`: full rebuild at the current dimensions
followed by `randomise()` over the whole grid. -/
def updateObjCache (env : Env) (o : Obj) : Obj :=
  let g := randomise env o.tileset o.type 0 0 o.width o.height
    (env.render o.tileset o.type o.width o.height)
  { o with objdata := g }

/-- `ObjectItem.isBottomRowSpecial`: whether any tile of the last row
carries `special & 0b01` (after the same guard chain as `randomise`). -/
def isBottomRowSpecial (env : Env) (o : Obj) : Bool :=
  match env.objDefFirstRaw o.tileset o.type, env.tilesetName o.tileset with
  | some _, some nm =>
    match env.tilesetInfo nm with
    | some tbl =>
      (List.range o.width).any fun x =>
        match tbl (low8 (getCell o.objdata (o.objdata.length - 1) x)) with
        | some meta => meta.special &&& 1 != 0
        | none => false
    | none => false
  | _, _ => false

/-- The full-rebuild fallback of `updateObjCacheWH`: swap in the new
dimensions, run `updateObjCache`, and restore the old dimensions (only the
grid keeps the new shape; the caller commits the dimensions afterwards). -/
def fullRebuildAt (env : Env) (o : Obj) (width height : Nat) : Obj :=
  let rebuilt := updateObjCache env { o with width := width, height := height }
  { rebuilt with width := o.width, height := o.height }

/-- `for y in range(len(self.objdata)): self.objdata[y] += new[y]` — append
the freshly rendered columns row-wise (a missing row of `new` appends
nothing where Python would raise; under `RenderOK` the row counts match). -/
def appendCols : Grid → Grid → Grid
  | [], _ => []
  | r :: rs, [] => (r ++ []) :: appendCols rs []
  | r :: rs, n :: ns => (r ++ n) :: appendCols rs ns

/-- The height adjustment of `updateObjCacheWH`: truncate rows on a
shrink; on growth, first drop a special bottom row (`self.objdata =
self.objdata[:-1]; self.height -= 1`), then append freshly rendered rows
and randomise just those. Note `self.height` is *not* set to the target
height here — the caller (`UpdateObj`) commits it afterwards. -/
def heightPhaseWH (env : Env) (o : Obj) (height : Nat) : Obj :=
  if height < o.height then { o with objdata := o.objdata.take height }
  else if o.height < height then
    let o' := if isBottomRowSpecial env o then
        { o with objdata := o.objdata.dropLast, height := o.height - 1 }
      else o
    let g := o'.objdata ++ env.render o'.tileset o'.type o'.width (height - o'.height)
    let g2 := randomise env o'.tileset o'.type 0 o'.height o'.width (height - o'.height) g
    { o' with objdata := g2 }
  else o

/-- The width adjustment of `updateObjCacheWH` (run after the height
phase, hence rendering the appended columns at the *target* height):
truncate every row on a shrink; on growth append rendered columns and
randomise just the appended column range. -/
def widthPhaseWH (env : Env) (o1 : Obj) (width height : Nat) : Obj :=
  if width < o1.width then { o1 with objdata := o1.objdata.map fun r => r.take width }
  else if o1.width < width then
    let new := env.render o1.tileset o1.type (width - o1.width) height
    let g2 := randomise env o1.tileset o1.type o1.width 0 (width - o1.width) height
      (appendCols o1.objdata new)
    { o1 with objdata := g2 }
  else o1

/-- `ObjectItem.updateObjCacheWH(width, height)`: full rebuild when the
randomisation guard fails or the first definition tile has no metadata
entry; no-op when the dimensions are unchanged; otherwise the height phase
followed by the width phase. -/
def updateObjCacheWH (env : Env) (o : Obj) (width height : Nat) : Obj :=
  match env.objDefFirstRaw o.tileset o.type, env.tilesetName o.tileset with
  | some raw, some nm =>
    match env.tilesetInfo nm with
    | some tbl =>
      match tbl (low8 raw) with
      | some _ =>
        if width = o.width ∧ height = o.height then o
        else widthPhaseWH env (heightPhaseWH env o height) width height
      | none => fullRebuildAt env o width height
    | none => fullRebuildAt env o width height
  | _, _ => fullRebuildAt env o width height

/-- `ObjectItem.UpdateObj(oldX, oldY, newSize)` restricted to its grid and
dimension effect: `updateObjCacheWH(*newSize)` followed by
`self.width, self.height = newSize`. -/
def UpdateObj (env : Env) (o : Obj) (newSize : Nat × Nat) : Obj :=
  let o1 := updateObjCacheWH env o newSize.1 newSize.2
  { o1 with width := newSize.1, height := newSize.2 }

/-- `ObjectItem.__init__`: the grid starts as `None` (here `[]`) and is
immediately built by `updateObjCache`. -/
def mkObject (env : Env) (tileset ty width height : Nat) : Obj :=
  updateObjCache env
    { tileset := tileset, type := ty, width := width, height := height, objdata := [] }

/-- The objects reachable by the public grid operations: construction,
`UpdateObj` commits (with committed dimensions ≥ 1), full rebuilds
(`updateObjCache`, as run by `SetType` or a tileset reload) and direct
`randomise` calls over any sub-rectangle. -/
inductive Reach (env : Env) : Obj → Prop
  | construct (ts ty w h : Nat) (hw : 1 ≤ w) (hh : 1 ≤ h) :
      Reach env (mkObject env ts ty w h)
  | update (o : Obj) (w h : Nat) (hw : 1 ≤ w) (hh : 1 ≤ h) :
      Reach env o → Reach env (UpdateObj env o (w, h))
  | rebuild (o : Obj) : Reach env o → Reach env (updateObjCache env o)
  | rand (o : Obj) (sx sy w h : Nat) : Reach env o →
      Reach env { o with objdata := randomise env o.tileset o.type sx sy w h o.objdata }

/-! ### Shape preservation lemmas -/

theorem setCell_shape {g : Grid} {w h : Nat} (hg : GridShape g w h) (y x : Nat) (v : Int) :
    GridShape (setCell g y x v) w h := by
  obtain ⟨hlen, hrow⟩ := hg
  refine ⟨by rw [setCell, List.length_set, hlen], ?_⟩
  intro row hr
  rcases List.mem_or_eq_of_mem_set hr with hmem | rfl
  · exact hrow row hmem
  · rcases Nat.lt_or_ge y g.length with hy | hy
    · rw [List.length_set, List.getD_eq_getElem _ _ hy]
      exact hrow _ (List.getElem_mem hy)
    · rw [List.getD_eq_default _ _ hy]
      rw [List.getD_eq_default _ _ hy] at hr
      simp only [List.set_nil] at hr ⊢
      rw [setCell, List.set_eq_of_length_le (by omega)] at hr
      exact hrow _ hr

theorem randomiseCell_shape (env : Env) (tileset : Nat) (tbl : Nat → Option TileMeta)
    {g : Grid} {w h : Nat} (hg : GridShape g w h) (y x : Nat) :
    GridShape (randomiseCell env tileset tbl g y x) w h := by
  rw [randomiseCell]
  rcases tbl (low8 (getCell g y x)) with _ | meta
  · exact hg
  · simp only
    split
    · exact hg
    · split
      · exact setCell_shape (setCell_shape hg _ _ _) _ _ _
      · exact setCell_shape hg _ _ _

theorem foldl_shape {α : Type} {w h : Nat} (f : Grid → α → Grid)
    (hf : ∀ g a, GridShape g w h → GridShape (f g a) w h) :
    ∀ (l : List α) (g : Grid), GridShape g w h → GridShape (l.foldl f g) w h := by
  intro l
  induction l with
  | nil => intro g hg; exact hg
  | cons a l ih => intro g hg; exact ih _ (hf g a hg)

theorem randomise_shape (env : Env) (tileset ty startx starty width height : Nat)
    {g : Grid} {w h : Nat} (hg : GridShape g w h) :
    GridShape (randomise env tileset ty startx starty width height g) w h := by
  rw [randomise]
  split
  · split
    · exact foldl_shape _
        (fun gy dy hgy => foldl_shape _
          (fun gx dx hgx => randomiseCell_shape env tileset _ hgx _ _) _ gy hgy) _ g hg
    · exact hg
  · exact hg

theorem updateObjCache_shape {env : Env} (hR : RenderOK env) (o : Obj) :
    GridShape (updateObjCache env o).objdata o.width o.height :=
  randomise_shape env _ _ _ _ _ _ (hR o.tileset o.type o.width o.height)

theorem updateObjCache_fields (env : Env) (o : Obj) :
    (updateObjCache env o).tileset = o.tileset ∧ (updateObjCache env o).type = o.type ∧
    (updateObjCache env o).width = o.width ∧ (updateObjCache env o).height = o.height :=
  ⟨rfl, rfl, rfl, rfl⟩

theorem take_shape {g : Grid} {w h : Nat} (hg : GridShape g w h) {h' : Nat} (hle : h' ≤ h) :
    GridShape (g.take h') w h' := by
  obtain ⟨hlen, hrow⟩ := hg
  exact ⟨by rw [List.length_take, hlen]; omega,
    fun row hr => hrow row (List.mem_of_mem_take hr)⟩

theorem dropLast_shape {g : Grid} {w h : Nat} (hg : GridShape g w h) :
    GridShape g.dropLast w (h - 1) := by
  obtain ⟨hlen, hrow⟩ := hg
  exact ⟨by rw [List.length_dropLast, hlen],
    fun row hr => hrow row ((List.dropLast_sublist g).mem hr)⟩

theorem append_shape {g1 g2 : Grid} {w h1 h2 : Nat}
    (hg1 : GridShape g1 w h1) (hg2 : GridShape g2 w h2) :
    GridShape (g1 ++ g2) w (h1 + h2) := by
  refine ⟨by rw [List.length_append, hg1.1, hg2.1], ?_⟩
  intro row hr
  rcases List.mem_append.mp hr with hm | hm
  · exact hg1.2 row hm
  · exact hg2.2 row hm

theorem appendCols_shape : ∀ {g n : Grid} {w w2 h : Nat},
    GridShape g w h → GridShape n w2 h → GridShape (appendCols g n) (w + w2) h := by
  intro g
  induction g with
  | nil =>
    intro n w w2 h hg _
    have h0 : h = 0 := by simpa using hg.1.symm
    subst h0
    exact ⟨by simp [appendCols], by intro row hr; simp [appendCols] at hr⟩
  | cons r rs ih =>
    intro n w w2 h hg hn
    cases n with
    | nil => exact absurd (hn.1.trans hg.1.symm) (by simp)
    | cons m ms =>
      have hh : h = rs.length + 1 := by simpa using hg.1.symm
      have hgs : GridShape rs w rs.length :=
        ⟨rfl, fun row hr => hg.2 row (List.mem_cons_of_mem _ hr)⟩
      have hms : GridShape ms w2 rs.length := by
        refine ⟨?_, fun row hr => hn.2 row (List.mem_cons_of_mem _ hr)⟩
        have := hn.1
        simp only [List.length_cons, hh] at this
        omega
      have hrec := ih hgs hms
      refine ⟨by simp [appendCols, hrec.1, hh], ?_⟩
      intro row hr
      simp only [appendCols] at hr
      rcases List.mem_cons.mp hr with rfl | hm
      · rw [List.length_append, hg.2 r (List.mem_cons_self _ _),
          hn.2 m (List.mem_cons_self _ _)]
      · exact hrec.2 row hm

theorem mapTake_shape {g : Grid} {w h : Nat} (hg : GridShape g w h) {w' : Nat} (hle : w' ≤ w) :
    GridShape (g.map fun r => r.take w') w' h := by
  refine ⟨by rw [List.length_map, hg.1], ?_⟩
  intro row hr
  obtain ⟨r0, hr0, rfl⟩ := List.mem_map.mp hr
  rw [List.length_take, hg.2 r0 hr0]
  omega

theorem fullRebuildAt_shape {env : Env} (hR : RenderOK env) (o : Obj) (width height : Nat) :
    GridShape (fullRebuildAt env o width height).objdata width height :=
  updateObjCache_shape hR { o with width := width, height := height }

theorem heightPhaseWH_fields (env : Env) (o : Obj) (height : Nat) :
    (heightPhaseWH env o height).tileset = o.tileset ∧
    (heightPhaseWH env o height).type = o.type ∧
    (heightPhaseWH env o height).width = o.width := by
  rw [heightPhaseWH]
  split
  · exact ⟨rfl, rfl, rfl⟩
  · split
    · split <;> exact ⟨rfl, rfl, rfl⟩
    · exact ⟨rfl, rfl, rfl⟩

/-- After the height phase, the grid has `height` rows of `o.width` tiles
each (the `width` field is untouched). -/
theorem heightPhaseWH_shape {env : Env} (hR : RenderOK env) (o : Obj) (height : Nat)
    (ho : GridShape o.objdata o.width o.height) :
    GridShape (heightPhaseWH env o height).objdata o.width height := by
  rw [heightPhaseWH]
  split
  · next hlt => exact take_shape ho (Nat.le_of_lt hlt)
  · split
    · next hgt =>
      split
      · next hspec =>
        refine randomise_shape env _ _ _ _ _ _ ?_
        have hdrop : GridShape o.objdata.dropLast o.width (o.height - 1) :=
          dropLast_shape ho
        have hren := hR o.tileset o.type o.width (height - (o.height - 1))
        have := append_shape hdrop hren
        rwa [Nat.add_sub_cancel' (by omega)] at this
      · refine randomise_shape env _ _ _ _ _ _ ?_
        have hren := hR o.tileset o.type o.width (height - o.height)
        have := append_shape ho hren
        rwa [Nat.add_sub_cancel' (Nat.le_of_lt hgt)] at this
    · next hgt =>
      have : o.height = height := by omega
      rwa [this] at ho

/-- After the width phase, the grid has `height` rows of `width` tiles. -/
theorem widthPhaseWH_shape {env : Env} (hR : RenderOK env) (o1 : Obj) (width height : Nat)
    (ho1 : GridShape o1.objdata o1.width height) :
    GridShape (widthPhaseWH env o1 width height).objdata width height := by
  rw [widthPhaseWH]
  split
  · next hlt => exact mapTake_shape ho1 (Nat.le_of_lt hlt)
  · split
    · next hgt =>
      refine randomise_shape env _ _ _ _ _ _ ?_
      have hren := hR o1.tileset o1.type (width - o1.width) height
      have := appendCols_shape ho1 hren
      rwa [Nat.add_sub_cancel' (Nat.le_of_lt hgt)] at this
    · next hgt =>
      have : o1.width = width := by omega
      rwa [this] at ho1

/-- The grid produced by `updateObjCacheWH(width, height)` always has
`height` rows of `width` tiles each, assuming the current grid matches the
current committed dimensions. -/
theorem updateObjCacheWH_shape {env : Env} (hR : RenderOK env) (o : Obj) (width height : Nat)
    (ho : GridShape o.objdata o.width o.height) :
    GridShape (updateObjCacheWH env o width height).objdata width height := by
  rw [updateObjCacheWH]
  split
  · split
    · split
      · split
        · next heq => obtain ⟨rfl, rfl⟩ := heq; exact ho
        · next hne =>
          have h1 := heightPhaseWH_shape hR o height ho
          rw [← (heightPhaseWH_fields env o height).2.2] at h1
          exact widthPhaseWH_shape hR _ width height h1
      · exact fullRebuildAt_shape hR o width height
    · exact fullRebuildAt_shape hR o width height
  · exact fullRebuildAt_shape hR o width height

/-- `UpdateObj` leaves the object with a grid matching its newly committed
dimensions. -/
theorem UpdateObj_shape {env : Env} (hR : RenderOK env) (o : Obj) (newSize : Nat × Nat)
    (ho : GridShape o.objdata o.width o.height) :
    GridShape (UpdateObj env o newSize).objdata (UpdateObj env o newSize).width
      (UpdateObj env o newSize).height :=
  updateObjCacheWH_shape hR o newSize.1 newSize.2 ho

/-- C1 (grid-shape invariant), main theorem: after any sequence of public
grid operations from construction onward, `self.objdata` has exactly
`height` rows and every row has exactly `width` entries, with the
committed `width` and `height` at least 1. -/
theorem reach_grid_shape {env : Env} (hR : RenderOK env) {o : Obj} (h : Reach env o) :
    1 ≤ o.width ∧ 1 ≤ o.height ∧
    o.objdata.length = o.height ∧ ∀ row ∈ o.objdata, row.length = o.width := by
  induction h with
  | construct ts ty w h hw hh =>
    have := updateObjCache_shape hR
      { tileset := ts, type := ty, width := w, height := h, objdata := [] }
    exact ⟨hw, hh, this.1, this.2⟩
  | update o w h hw hh _ ih =>
    have := UpdateObj_shape hR o (w, h) ⟨ih.2.2.1, ih.2.2.2⟩
    exact ⟨hw, hh, this.1, this.2⟩
  | rebuild o _ ih =>
    have := updateObjCache_shape hR o
    exact ⟨ih.1, ih.2.1, this.1, this.2⟩
  | rand o sx sy w h _ ih =>
    have := randomise_shape env o.tileset o.type sx sy w h ⟨ih.2.2.1, ih.2.2.2⟩
    exact ⟨ih.1, ih.2.1, this.1, this.2⟩

/-! ### Cell access lemmas -/

theorem getCell_setCell_self {g : Grid} {y x : Nat} (hy : y < g.length)
    (hx : x < (g.getD y []).length) {v : Int} :
    getCell (setCell g y x v) y x = v := by
  have hrow : (List.set g y ((g.getD y []).set x v)).getD y [] = (g.getD y []).set x v := by
    rw [List.getD_eq_getElem?_getD, List.getElem?_set_self hy, Option.getD_some]
  show ((List.set g y ((g.getD y []).set x v)).getD y []).getD x 0 = v
  rw [hrow, List.getD_eq_getElem?_getD ((g.getD y []).set x v) x 0,
    List.getElem?_set_self hx, Option.getD_some]

theorem getCell_setCell_ne_row {g : Grid} {y' y : Nat} (h : y' ≠ y) {x' x : Nat} {v : Int} :
    getCell (setCell g y' x' v) y x = getCell g y x := by
  have hrow : (List.set g y' ((g.getD y' []).set x' v)).getD y [] = g.getD y [] := by
    rw [List.getD_eq_getElem?_getD, List.getElem?_set_ne h, ← List.getD_eq_getElem?_getD]
  show ((List.set g y' ((g.getD y' []).set x' v)).getD y []).getD x 0 = (g.getD y []).getD x 0
  rw [hrow]

/-- The low byte of the composed value `(tileset << 8) | p` is `p` whenever
`p` fits in a byte. -/
theorem low8_compose (tileset p : Nat) (hp : p < 256) :
    low8 (((tileset <<< 8) ||| p : Nat) : Int) = p := by
  rw [low8, show ((256 : Int)) = ((256 : Nat) : Int) by norm_num,
    ← Int.natCast_mod, Int.toNat_natCast]
  apply Nat.eq_of_testBit_eq
  intro i
  rw [show (256 : ℕ) = 2 ^ 8 by norm_num, Nat.testBit_mod_two_pow, Nat.testBit_lor,
    Nat.testBit_shiftLeft]
  rcases lt_or_le i 8 with hi | hi
  · simp [hi, Nat.not_le.mpr hi]
  · have h256 : (256 : ℕ) ≤ 2 ^ i := by
      calc (256 : ℕ) = 2 ^ 8 := by norm_num
        _ ≤ 2 ^ i := Nat.pow_le_pow_right (by norm_num) hi
    have hpi : p.testBit i = false := Nat.testBit_eq_false_of_lt (lt_of_lt_of_le hp h256)
    have h8 : ¬ i < 8 := Nat.not_lt.mpr hi
    simp [h8, hpi]

/-- Whatever survives the neighbour filter is one of the original
candidates. -/
theorem filterCands_subset (meta : TileMeta) (g : Grid) (y x : Nat) :
    filterCands meta g y x ⊆ meta.tiles := by
  rw [filterCands]
  split <;> split <;>
    first
      | exact (List.erase_subset _ _).trans (List.erase_subset _ _)
      | exact List.erase_subset _ _
      | exact fun a ha => ha

/-- When direction bit 0 is set and `x > 0`, the left neighbour's low byte
never survives the neighbour filter (the candidate list holds distinct
ids). -/
theorem filterCands_not_left (meta : TileMeta) (g : Grid) (y x : Nat)
    (hdir : meta.direction &&& 1 ≠ 0) (hx : 0 < x) (hnodup : meta.tiles.Nodup) :
    low8 (getCell g y (x - 1)) ∉ filterCands meta g y x := by
  intro hmem
  rw [filterCands] at hmem
  simp only [if_pos (show meta.direction &&& 1 ≠ 0 ∧ 0 < x from ⟨hdir, hx⟩)] at hmem
  split at hmem
  · have hmem' := List.erase_subset _ _ hmem
    exact ((hnodup.mem_erase_iff.mp hmem').1) rfl
  · exact ((hnodup.mem_erase_iff.mp hmem).1) rfl

/-- C2 (randomization exclusion), per processed cell: if the cell's
metadata has direction bit 0 set, a left neighbour exists, and removing
the neighbours' ids did not empty the candidate list, then the low byte
stored by `randomise` for that cell differs from the left neighbour's low
byte — for every possible random choice (`PickOK`). -/
theorem randomiseCell_left_exclusion {env : Env} (hpick : PickOK env)
    (tileset : Nat) (tbl : Nat → Option TileMeta) (g : Grid) (y x : Nat)
    (meta : TileMeta)
    (hmeta : tbl (low8 (getCell g y x)) = some meta)
    (hnotskip : meta.special &&& 1 = 0)
    (hdir : meta.direction &&& 1 ≠ 0)
    (hx : 0 < x)
    (hnodup : meta.tiles.Nodup)
    (hbyte : ∀ c ∈ meta.tiles, c < 256)
    (hne : filterCands meta g y x ≠ [])
    (hy : y < g.length)
    (hxr : x < (g.getD y []).length) :
    low8 (getCell (randomiseCell env tileset tbl g y x) y x) ≠
      low8 (getCell g y (x - 1)) := by
  have hp : env.pick (filterCands meta g y x) ∈ filterCands meta g y x := hpick _ hne
  have hplt : env.pick (filterCands meta g y x) < 256 :=
    hbyte _ (filterCands_subset meta g y x hp)
  have hskip : ¬ (meta.special &&& 1 ≠ 0) := by rw [hnotskip]; simp
  have hfinal :
      low8 (((tileset <<< 8) ||| env.pick (filterCands meta g y x) : Nat) : Int) ≠
        low8 (getCell g y (x - 1)) := by
    rw [low8_compose _ _ hplt]
    intro hcontra
    exact filterCands_not_left meta g y x hdir hx hnodup (hcontra ▸ hp)
  rw [randomiseCell]
  simp only [hmeta, if_neg hskip, if_neg hne]
  split
  · next hsp =>
    rw [getCell_setCell_ne_row (show y - 1 ≠ y by omega), getCell_setCell_self hy hxr]
    exact hfinal
  · rw [getCell_setCell_self hy hxr]
    exact hfinal

/-! ### Sample environments (used by the closed witnesses) -/

/-- An environment with no randomisation metadata at all; `render` yields a
constant grid of the requested shape. -/
def sampleEnvPlain : Env where
  tilesetName := fun _ => none
  tilesetInfo := fun _ => none
  objDefFirstRaw := fun _ _ => none
  render := fun _ _ w h => List.replicate h (List.replicate w 0)
  pick := fun l => l.headD 0

/-- A one-entry randomisation table: tile 5 may become 5 or 6, with the
horizontal-exclusion direction bit set. -/
def sampleTbl : Nat → Option TileMeta := fun t =>
  if t = 5 then some ⟨[5, 6], 1, 0⟩ else none

/-- An environment carrying `sampleTbl` for tileset 0; object type 0 has
first raw tile 5 (present in the table) and object type 1 has first raw
tile 7 (absent from the table). -/
def sampleEnvRand : Env where
  tilesetName := fun ts => if ts = 0 then some 0 else none
  tilesetInfo := fun nm => if nm = 0 then some sampleTbl else none
  objDefFirstRaw := fun ts ty =>
    if ts = 0 ∧ ty = 0 then some 5 else if ts = 0 ∧ ty = 1 then some 7 else none
  render := fun _ _ w h => List.replicate h (List.replicate w 9)
  pick := fun l => l.headD 0

theorem headD_mem_of_ne_nil : ∀ (l : List Nat), l ≠ [] → l.headD 0 ∈ l := by
  intro l hl
  cases l with
  | nil => exact absurd rfl hl
  | cons a t => exact List.mem_cons_self a t

theorem sampleEnvRand_pickOK : PickOK sampleEnvRand :=
  fun l hl => headD_mem_of_ne_nil l hl

theorem sampleEnvPlain_renderOK : RenderOK sampleEnvPlain := by
  intro ts ty w h
  constructor
  · show (List.replicate h (List.replicate w 0)).length = h
    rw [List.length_replicate]
  · intro row hr
    have hr' : row ∈ List.replicate h (List.replicate w (0 : Int)) := hr
    rw [(List.mem_replicate.mp hr').2, List.length_replicate]

/-- C1 (grid-shape invariant): witness instantiating `reach_grid_shape` at
a concrete environment and a freshly constructed 2×3 object. -/
theorem reach_grid_shape_witness :
    1 ≤ (mkObject sampleEnvPlain 0 0 2 3).width ∧
    1 ≤ (mkObject sampleEnvPlain 0 0 2 3).height ∧
    (mkObject sampleEnvPlain 0 0 2 3).objdata.length = (mkObject sampleEnvPlain 0 0 2 3).height ∧
    ∀ row ∈ (mkObject sampleEnvPlain 0 0 2 3).objdata,
      row.length = (mkObject sampleEnvPlain 0 0 2 3).width :=
  reach_grid_shape sampleEnvPlain_renderOK
    (Reach.construct 0 0 2 3 (by omega) (by omega))

/-- C2: witness instantiating the exclusion theorem at a concrete cell
whose left neighbour holds tile 5 (the filtered candidate list is `[6]`,
nonempty). -/
theorem randomiseCell_left_exclusion_witness :
    low8 (getCell (randomiseCell sampleEnvRand 0 sampleTbl [[5, 5]] 0 1) 0 1) ≠
      low8 (getCell [[5, 5]] 0 0) :=
  randomiseCell_left_exclusion sampleEnvRand_pickOK 0 sampleTbl [[5, 5]] 0 1
    ⟨[5, 6], 1, 0⟩ rfl rfl (by decide) (by decide) (by decide) (by decide)
    (by decide) (by decide) (by decide)

/-- C10 (incremental path gated on the first definition tile only): when
the tileset is in the randomisation table but the first raw definition
tile has no entry, `updateObjCacheWH` performs a full rebuild at the new
dimensions — the resulting grid is freshly rendered and randomised at
`(width, height)` independently of the current grid contents, even on a
pure shrink. -/
theorem updateObjCacheWH_firstTile_gate (env : Env) (o : Obj) (width height : Nat)
    (raw : Int) (nm : Nat) (tbl : Nat → Option TileMeta)
    (hraw : env.objDefFirstRaw o.tileset o.type = some raw)
    (hnm : env.tilesetName o.tileset = some nm)
    (htbl : env.tilesetInfo nm = some tbl)
    (hmiss : tbl (low8 raw) = none) :
    updateObjCacheWH env o width height = fullRebuildAt env o width height ∧
    (fullRebuildAt env o width height).objdata =
      randomise env o.tileset o.type 0 0 width height
        (env.render o.tileset o.type width height) := by
  constructor
  · rw [updateObjCacheWH]
    simp only [hraw, hnm, htbl, hmiss]
  · rfl

/-- C10: witness — a 2×2 object of type 1 (first raw tile 7, not in the
table) shrunk to 1×1 is fully re-rendered. -/
theorem updateObjCacheWH_firstTile_gate_witness :
    updateObjCacheWH sampleEnvRand ⟨0, 1, 2, 2, [[1, 2], [3, 4]]⟩ 1 1 =
      fullRebuildAt sampleEnvRand ⟨0, 1, 2, 2, [[1, 2], [3, 4]]⟩ 1 1 ∧
    (fullRebuildAt sampleEnvRand ⟨0, 1, 2, 2, [[1, 2], [3, 4]]⟩ 1 1).objdata =
      randomise sampleEnvRand 0 1 0 0 1 1 (sampleEnvRand.render 0 1 1 1) :=
  updateObjCacheWH_firstTile_gate sampleEnvRand ⟨0, 1, 2, 2, [[1, 2], [3, 4]]⟩ 1 1
    7 0 sampleTbl rfl rfl rfl rfl

/-- C4 counterexample: for an object with no randomisation metadata,
`updateObjCacheWH` at the unchanged size 1×1 *does* replace the grid (it
takes the full-rebuild branch before ever reaching the no-op check), so
the claimed unconditional no-op fails at this concrete input. -/
theorem noop_resize_counterexample :
    (updateObjCacheWH sampleEnvPlain ⟨0, 0, 1, 1, [[5]]⟩ 1 1).objdata ≠
      (⟨0, 0, 1, 1, [[5]]⟩ : Obj).objdata := by
  decide

/-- C4 (amended): when the randomisation guard passes — the tileset has a
name and a table and the first raw definition tile has a table entry — a
resize to the current dimensions returns the object unchanged. -/
theorem updateObjCacheWH_noop (env : Env) (o : Obj)
    (raw : Int) (nm : Nat) (tbl : Nat → Option TileMeta) (meta : TileMeta)
    (hraw : env.objDefFirstRaw o.tileset o.type = some raw)
    (hnm : env.tilesetName o.tileset = some nm)
    (htbl : env.tilesetInfo nm = some tbl)
    (hhit : tbl (low8 raw) = some meta) :
    updateObjCacheWH env o o.width o.height = o := by
  rw [updateObjCacheWH]
  simp only [hraw, hnm, htbl, hhit]
  rw [if_pos ⟨trivial, trivial⟩]

/-- C4 (amended): witness at a concrete metadata-bearing object. -/
theorem updateObjCacheWH_noop_witness :
    updateObjCacheWH sampleEnvRand ⟨0, 0, 1, 1, [[5]]⟩ 1 1 = ⟨0, 0, 1, 1, [[5]]⟩ :=
  updateObjCacheWH_noop sampleEnvRand ⟨0, 0, 1, 1, [[5]]⟩ 5 0 sampleTbl
    ⟨[5, 6], 1, 0⟩ rfl rfl rfl rfl

/-! ### Interactive resize protocol (`ObjectItem.mouseMoveEvent`)

The geometry of one gesture participant: committed position/size
(`obj.objx`, `obj.objy`, `obj.width`, `obj.height`, as committed by
`UpdateObj`) and the size snapshot held in `self.objsDragging[obj]`.
All are Python ints (`Int`); the snapshot may legitimately go below 1.
The tile-grid side effect of `UpdateObj` is modelled separately above;
here we track exactly the numbers the event handler manipulates. -/

structure Part where
  objx : Int
  objy : Int
  width : Int
  height : Int
  dragW : Int
  dragH : Int
deriving DecidableEq

/-- The `TLGrabbed` loop body for one participant: subtract the delta from
both snapshot axes; if either falls below 1 revert just those snapshot
axes and commit nothing; otherwise commit each axis whose origin check
(`newX >= 0 and newX + newWidth == obj.objx + obj.width`, resp. for y)
passes, reverting the snapshot of each axis whose check fails. -/
def tlOne (dx dy : Int) (p : Part) : Part :=
  let w1 := p.dragW - dx
  let h1 := p.dragH - dy
  if w1 < 1 ∨ h1 < 1 then
    { p with dragW := if w1 < 1 then p.dragW else w1,
             dragH := if h1 < 1 then p.dragH else h1 }
  else
    let newX := p.objx + dx
    let newY := p.objy + dy
    let xOK := 0 ≤ newX ∧ newX + w1 = p.objx + p.width
    let yOK := 0 ≤ newY ∧ newY + h1 = p.objy + p.height
    { objx := if xOK then newX else p.objx,
      objy := if yOK then newY else p.objy,
      width := if xOK then w1 else p.width,
      height := if yOK then h1 else p.height,
      dragW := if xOK then w1 else p.dragW,
      dragH := if yOK then h1 else p.dragH }

/-- The `TRGrabbed` loop body: width snapshot takes the delta
unconditionally; a height underflow reverts only the height snapshot and
commits nothing; otherwise the committed width is the snapshot clamped to
at least 1 and the height/origin commit is guarded like the top edge. -/
def trOne (dx dy : Int) (p : Part) : Part :=
  let w1 := p.dragW + dx
  let h1 := p.dragH - dy
  if h1 < 1 then { p with dragW := w1 }
  else
    let newY := p.objy + dy
    let newW := if w1 < 1 then 1 else w1
    let yOK := 0 ≤ newY ∧ newY + h1 = p.objy + p.height
    { objx := p.objx,
      objy := if yOK then newY else p.objy,
      width := newW,
      height := if yOK then h1 else p.height,
      dragW := w1,
      dragH := if yOK then h1 else p.dragH }

/-- The `BLGrabbed` loop body (mirror of `trOne`). -/
def blOne (dx dy : Int) (p : Part) : Part :=
  let w1 := p.dragW - dx
  let h1 := p.dragH + dy
  if w1 < 1 then { p with dragH := h1 }
  else
    let newX := p.objx + dx
    let newH := if h1 < 1 then 1 else h1
    let xOK := 0 ≤ newX ∧ newX + w1 = p.objx + p.width
    { objx := if xOK then newX else p.objx,
      objy := p.objy,
      width := if xOK then w1 else p.width,
      height := newH,
      dragW := if xOK then w1 else p.dragW,
      dragH := h1 }

/-- The `BRGrabbed` loop body: both snapshots take the delta and both
committed sizes are the snapshots clamped to at least 1. -/
def brOne (dx dy : Int) (p : Part) : Part :=
  let w1 := p.dragW + dx
  let h1 := p.dragH + dy
  { objx := p.objx, objy := p.objy,
    width := if w1 < 1 then 1 else w1,
    height := if h1 < 1 then 1 else h1,
    dragW := w1, dragH := h1 }

/-- The `MTGrabbed` loop body. -/
def mtOne (dy : Int) (p : Part) : Part :=
  let h1 := p.dragH - dy
  if h1 < 1 then p
  else
    let newY := p.objy + dy
    let yOK := 0 ≤ newY ∧ newY + h1 = p.objy + p.height
    { p with objy := if yOK then newY else p.objy,
             height := if yOK then h1 else p.height,
             dragH := if yOK then h1 else p.dragH }

/-- The `MLGrabbed` loop body. -/
def mlOne (dx : Int) (p : Part) : Part :=
  let w1 := p.dragW - dx
  if w1 < 1 then p
  else
    let newX := p.objx + dx
    let xOK := 0 ≤ newX ∧ newX + w1 = p.objx + p.width
    { p with objx := if xOK then newX else p.objx,
             width := if xOK then w1 else p.width,
             dragW := if xOK then w1 else p.dragW }

/-- The `MBGrabbed` loop body. -/
def mbOne (dy : Int) (p : Part) : Part :=
  let h1 := p.dragH + dy
  { p with height := if h1 < 1 then 1 else h1, dragH := h1 }

/-- The `MRGrabbed` loop body. -/
def mrOne (dx : Int) (p : Part) : Part :=
  let w1 := p.dragW + dx
  { p with width := if w1 < 1 then 1 else w1, dragW := w1 }

/-- The eight anchor hit regions (which `*Grabbed` flag is set). -/
inductive Anchor
  | TL | TR | BL | BR | MT | ML | MB | MR
deriving DecidableEq

/-- One gesture: the stored reference cell (`self.dragstartx/y`) and the
participant set (`self.objsDragging` plus each participant's committed
geometry). -/
structure Gesture where
  dragstartx : Int
  dragstarty : Int
  parts : List Part
deriving DecidableEq

/-- One `mouseMoveEvent` while dragging: per the grabbed anchor, clamp the
pointer cell where the code does, test the pointer-changed guard, advance
the stored reference exactly where the code assigns `self.dragstartx/y`,
and run the per-participant body over every participant. -/
def mouseMoveStep (a : Anchor) (g : Gesture) (clickedx clickedy : Int) : Gesture :=
  let dsx := g.dragstartx
  let dsy := g.dragstarty
  match a with
  | .TL =>
    if clickedx ≠ dsx ∨ clickedy ≠ dsy then
      { g with parts := g.parts.map (tlOne (clickedx - dsx) (clickedy - dsy)) }
    else g
  | .TR =>
    let cx := if clickedx < 0 then 0 else clickedx
    if cx ≠ dsx ∨ clickedy ≠ dsy then
      { dragstartx := cx, dragstarty := dsy,
        parts := g.parts.map (trOne (cx - dsx) (clickedy - dsy)) }
    else g
  | .BL =>
    let cy := if clickedy < 0 then 0 else clickedy
    if clickedx ≠ dsx ∨ cy ≠ dsy then
      { dragstartx := dsx, dragstarty := cy,
        parts := g.parts.map (blOne (clickedx - dsx) (cy - dsy)) }
    else g
  | .BR =>
    let cx := if clickedx < 0 then 0 else clickedx
    let cy := if clickedy < 0 then 0 else clickedy
    if cx ≠ dsx ∨ cy ≠ dsy then
      { dragstartx := cx, dragstarty := cy,
        parts := g.parts.map (brOne (cx - dsx) (cy - dsy)) }
    else g
  | .MT =>
    if clickedy ≠ dsy then
      { g with parts := g.parts.map (mtOne (clickedy - dsy)) }
    else g
  | .ML =>
    if clickedx ≠ dsx then
      { g with parts := g.parts.map (mlOne (clickedx - dsx)) }
    else g
  | .MB =>
    let cy := if clickedy < 0 then 0 else clickedy
    if cy ≠ dsy then
      { dragstartx := dsx, dragstarty := cy, parts := g.parts.map (mbOne (cy - dsy)) }
    else g
  | .MR =>
    let cx := if clickedx < 0 then 0 else clickedx
    if cx ≠ dsx then
      { dragstartx := cx, dragstarty := dsy, parts := g.parts.map (mrOne (cx - dsx)) }
    else g

/-- A whole gesture: fold the pointer-move steps over the initial state. -/
def runGesture (a : Anchor) (g : Gesture) (steps : List (Int × Int)) : Gesture :=
  steps.foldl (fun s c => mouseMoveStep a s c.1 c.2) g

/-! ### C3: minimum-size floor -/

theorem tlOne_sizes (dx dy : Int) (p : Part) (hw : 1 ≤ p.width) (hh : 1 ≤ p.height) :
    1 ≤ (tlOne dx dy p).width ∧ 1 ≤ (tlOne dx dy p).height := by
  simp only [tlOne]
  split_ifs <;> simp_all

theorem trOne_sizes (dx dy : Int) (p : Part) (hw : 1 ≤ p.width) (hh : 1 ≤ p.height) :
    1 ≤ (trOne dx dy p).width ∧ 1 ≤ (trOne dx dy p).height := by
  simp only [trOne]
  split_ifs <;> simp_all

theorem blOne_sizes (dx dy : Int) (p : Part) (hw : 1 ≤ p.width) (hh : 1 ≤ p.height) :
    1 ≤ (blOne dx dy p).width ∧ 1 ≤ (blOne dx dy p).height := by
  simp only [blOne]
  split_ifs <;> simp_all

theorem brOne_sizes (dx dy : Int) (p : Part) (hw : 1 ≤ p.width) (hh : 1 ≤ p.height) :
    1 ≤ (brOne dx dy p).width ∧ 1 ≤ (brOne dx dy p).height := by
  simp only [brOne]
  split_ifs <;> simp_all

theorem mtOne_sizes (dy : Int) (p : Part) (hw : 1 ≤ p.width) (hh : 1 ≤ p.height) :
    1 ≤ (mtOne dy p).width ∧ 1 ≤ (mtOne dy p).height := by
  simp only [mtOne]
  split_ifs <;> simp_all

theorem mlOne_sizes (dx : Int) (p : Part) (hw : 1 ≤ p.width) (hh : 1 ≤ p.height) :
    1 ≤ (mlOne dx p).width ∧ 1 ≤ (mlOne dx p).height := by
  simp only [mlOne]
  split_ifs <;> simp_all

theorem mbOne_sizes (dy : Int) (p : Part) (hw : 1 ≤ p.width) (hh : 1 ≤ p.height) :
    1 ≤ (mbOne dy p).width ∧ 1 ≤ (mbOne dy p).height := by
  simp only [mbOne]
  split_ifs <;> simp_all

theorem mrOne_sizes (dx : Int) (p : Part) (hw : 1 ≤ p.width) (hh : 1 ≤ p.height) :
    1 ≤ (mrOne dx p).width ∧ 1 ≤ (mrOne dx p).height := by
  simp only [mrOne]
  split_ifs <;> simp_all

theorem mouseMoveStep_sizes (a : Anchor) (g : Gesture) (cx cy : Int)
    (h : ∀ p ∈ g.parts, 1 ≤ p.width ∧ 1 ≤ p.height) :
    ∀ p ∈ (mouseMoveStep a g cx cy).parts, 1 ≤ p.width ∧ 1 ≤ p.height := by
  have key : ∀ (f : Part → Part),
      (∀ q : Part, 1 ≤ q.width → 1 ≤ q.height → 1 ≤ (f q).width ∧ 1 ≤ (f q).height) →
      ∀ p ∈ g.parts.map f, 1 ≤ p.width ∧ 1 ≤ p.height := by
    intro f hf p hp
    rcases List.mem_map.mp hp with ⟨q, hq, rfl⟩
    exact hf q (h q hq).1 (h q hq).2
  cases a
  case TL =>
    rw [mouseMoveStep]
    split <;>
      first
        | exact key _ (fun q h1 h2 => tlOne_sizes _ _ q h1 h2)
        | exact h
  case TR =>
    rw [mouseMoveStep]
    split <;> split <;>
      first
        | exact key _ (fun q h1 h2 => trOne_sizes _ _ q h1 h2)
        | exact h
  case BL =>
    rw [mouseMoveStep]
    split <;> split <;>
      first
        | exact key _ (fun q h1 h2 => blOne_sizes _ _ q h1 h2)
        | exact h
  case BR =>
    rw [mouseMoveStep]
    split <;> split <;> split <;>
      first
        | exact key _ (fun q h1 h2 => brOne_sizes _ _ q h1 h2)
        | exact h
  case MT =>
    rw [mouseMoveStep]
    split <;>
      first
        | exact key _ (fun q h1 h2 => mtOne_sizes _ q h1 h2)
        | exact h
  case ML =>
    rw [mouseMoveStep]
    split <;>
      first
        | exact key _ (fun q h1 h2 => mlOne_sizes _ q h1 h2)
        | exact h
  case MB =>
    rw [mouseMoveStep]
    split <;> split <;>
      first
        | exact key _ (fun q h1 h2 => mbOne_sizes _ q h1 h2)
        | exact h
  case MR =>
    rw [mouseMoveStep]
    split <;> split <;>
      first
        | exact key _ (fun q h1 h2 => mrOne_sizes _ q h1 h2)
        | exact h

/-- C3 (minimum-size floor): for every anchor, every participant and every
sequence of pointer-move steps of arbitrary delta magnitude and sign,
every participant's committed width and height stay at least 1 after each
step. -/
theorem resize_min_size_floor (a : Anchor) (g : Gesture) (steps : List (Int × Int))
    (h : ∀ p ∈ g.parts, 1 ≤ p.width ∧ 1 ≤ p.height) :
    ∀ p ∈ (runGesture a g steps).parts, 1 ≤ p.width ∧ 1 ≤ p.height := by
  induction steps generalizing g with
  | nil => exact h
  | cons c cs ih => exact ih _ (mouseMoveStep_sizes a g c.1 c.2 h)

/-- C3: witness — a bottom-right drag by (−2, −2) on a 3×3 participant
still leaves both committed sizes at least 1. -/
theorem resize_min_size_floor_witness :
    1 ≤ ((runGesture Anchor.BR ⟨3, 3, [⟨0, 0, 3, 3, 3, 3⟩]⟩ [(-2, -2)]).parts.headD
        ⟨0, 0, 0, 0, 0, 0⟩).width ∧
    1 ≤ ((runGesture Anchor.BR ⟨3, 3, [⟨0, 0, 3, 3, 3, 3⟩]⟩ [(-2, -2)]).parts.headD
        ⟨0, 0, 0, 0, 0, 0⟩).height :=
  resize_min_size_floor Anchor.BR ⟨3, 3, [⟨0, 0, 3, 3, 3, 3⟩]⟩ [(-2, -2)]
    (by decide) _ (by decide)

/-! ### C5: origin-move validity -/

theorem tlOne_x_only_if (dx dy : Int) (p : Part) (hne : (tlOne dx dy p).objx ≠ p.objx) :
    p.objx + dx + (p.dragW - dx) = p.objx + p.width := by
  simp only [tlOne] at hne
  split_ifs at hne <;> simp_all

theorem tlOne_x_revert (dx dy : Int) (p : Part)
    (hok : ¬(p.dragW - dx < 1 ∨ p.dragH - dy < 1))
    (hfail : p.objx + dx + (p.dragW - dx) ≠ p.objx + p.width) :
    (tlOne dx dy p).objx = p.objx ∧ (tlOne dx dy p).dragW = p.dragW ∧
      (tlOne dx dy p).width = p.width := by
  simp only [tlOne]
  split_ifs <;> simp_all

theorem tlOne_y_only_if (dx dy : Int) (p : Part) (hne : (tlOne dx dy p).objy ≠ p.objy) :
    p.objy + dy + (p.dragH - dy) = p.objy + p.height := by
  simp only [tlOne] at hne
  split_ifs at hne <;> simp_all

theorem tlOne_y_revert (dx dy : Int) (p : Part)
    (hok : ¬(p.dragW - dx < 1 ∨ p.dragH - dy < 1))
    (hfail : p.objy + dy + (p.dragH - dy) ≠ p.objy + p.height) :
    (tlOne dx dy p).objy = p.objy ∧ (tlOne dx dy p).dragH = p.dragH ∧
      (tlOne dx dy p).height = p.height := by
  simp only [tlOne]
  split_ifs <;> simp_all

theorem mlOne_x_only_if (dx : Int) (p : Part) (hne : (mlOne dx p).objx ≠ p.objx) :
    p.objx + dx + (p.dragW - dx) = p.objx + p.width := by
  simp only [mlOne] at hne
  split_ifs at hne <;> simp_all

theorem mlOne_x_revert (dx : Int) (p : Part) (hok : ¬(p.dragW - dx < 1))
    (hfail : p.objx + dx + (p.dragW - dx) ≠ p.objx + p.width) :
    (mlOne dx p).objx = p.objx ∧ (mlOne dx p).dragW = p.dragW ∧
      (mlOne dx p).width = p.width := by
  simp only [mlOne]
  split_ifs <;> simp_all

theorem mtOne_y_only_if (dy : Int) (p : Part) (hne : (mtOne dy p).objy ≠ p.objy) :
    p.objy + dy + (p.dragH - dy) = p.objy + p.height := by
  simp only [mtOne] at hne
  split_ifs at hne <;> simp_all

theorem mtOne_y_revert (dy : Int) (p : Part) (hok : ¬(p.dragH - dy < 1))
    (hfail : p.objy + dy + (p.dragH - dy) ≠ p.objy + p.height) :
    (mtOne dy p).objy = p.objy ∧ (mtOne dy p).dragH = p.dragH ∧
      (mtOne dy p).height = p.height := by
  simp only [mtOne]
  split_ifs <;> simp_all

theorem trOne_y_only_if (dx dy : Int) (p : Part) (hne : (trOne dx dy p).objy ≠ p.objy) :
    p.objy + dy + (p.dragH - dy) = p.objy + p.height := by
  simp only [trOne] at hne
  split_ifs at hne <;> simp_all

theorem trOne_y_revert (dx dy : Int) (p : Part) (hok : ¬(p.dragH - dy < 1))
    (hfail : p.objy + dy + (p.dragH - dy) ≠ p.objy + p.height) :
    (trOne dx dy p).objy = p.objy ∧ (trOne dx dy p).dragH = p.dragH ∧
      (trOne dx dy p).height = p.height := by
  simp only [trOne]
  split_ifs <;> simp_all

theorem blOne_x_only_if (dx dy : Int) (p : Part) (hne : (blOne dx dy p).objx ≠ p.objx) :
    p.objx + dx + (p.dragW - dx) = p.objx + p.width := by
  simp only [blOne] at hne
  split_ifs at hne <;> simp_all

theorem blOne_x_revert (dx dy : Int) (p : Part) (hok : ¬(p.dragW - dx < 1))
    (hfail : p.objx + dx + (p.dragW - dx) ≠ p.objx + p.width) :
    (blOne dx dy p).objx = p.objx ∧ (blOne dx dy p).dragW = p.dragW ∧
      (blOne dx dy p).width = p.width := by
  simp only [blOne]
  split_ifs <;> simp_all

/-- C5 (origin-move validity): for every origin-moving anchor/axis pair
(top-left x and y, middle-left x, middle-top y, top-right y, bottom-left
x), the participant's origin on that axis changes only when
`newOrigin + newSize = oldOrigin + oldSize` holds there, and when that
check fails at the commit stage the origin is left unchanged and that
axis's snapshot (and committed size) keeps its pre-delta value. -/
theorem origin_move_validity (p : Part) (dx dy : Int) :
    ((tlOne dx dy p).objx ≠ p.objx → p.objx + dx + (p.dragW - dx) = p.objx + p.width) ∧
    (¬(p.dragW - dx < 1 ∨ p.dragH - dy < 1) →
      p.objx + dx + (p.dragW - dx) ≠ p.objx + p.width →
      (tlOne dx dy p).objx = p.objx ∧ (tlOne dx dy p).dragW = p.dragW ∧
        (tlOne dx dy p).width = p.width) ∧
    ((tlOne dx dy p).objy ≠ p.objy → p.objy + dy + (p.dragH - dy) = p.objy + p.height) ∧
    (¬(p.dragW - dx < 1 ∨ p.dragH - dy < 1) →
      p.objy + dy + (p.dragH - dy) ≠ p.objy + p.height →
      (tlOne dx dy p).objy = p.objy ∧ (tlOne dx dy p).dragH = p.dragH ∧
        (tlOne dx dy p).height = p.height) ∧
    ((mlOne dx p).objx ≠ p.objx → p.objx + dx + (p.dragW - dx) = p.objx + p.width) ∧
    (¬(p.dragW - dx < 1) → p.objx + dx + (p.dragW - dx) ≠ p.objx + p.width →
      (mlOne dx p).objx = p.objx ∧ (mlOne dx p).dragW = p.dragW ∧
        (mlOne dx p).width = p.width) ∧
    ((mtOne dy p).objy ≠ p.objy → p.objy + dy + (p.dragH - dy) = p.objy + p.height) ∧
    (¬(p.dragH - dy < 1) → p.objy + dy + (p.dragH - dy) ≠ p.objy + p.height →
      (mtOne dy p).objy = p.objy ∧ (mtOne dy p).dragH = p.dragH ∧
        (mtOne dy p).height = p.height) ∧
    ((trOne dx dy p).objy ≠ p.objy → p.objy + dy + (p.dragH - dy) = p.objy + p.height) ∧
    (¬(p.dragH - dy < 1) → p.objy + dy + (p.dragH - dy) ≠ p.objy + p.height →
      (trOne dx dy p).objy = p.objy ∧ (trOne dx dy p).dragH = p.dragH ∧
        (trOne dx dy p).height = p.height) ∧
    ((blOne dx dy p).objx ≠ p.objx → p.objx + dx + (p.dragW - dx) = p.objx + p.width) ∧
    (¬(p.dragW - dx < 1) → p.objx + dx + (p.dragW - dx) ≠ p.objx + p.width →
      (blOne dx dy p).objx = p.objx ∧ (blOne dx dy p).dragW = p.dragW ∧
        (blOne dx dy p).width = p.width) :=
  ⟨tlOne_x_only_if dx dy p, tlOne_x_revert dx dy p,
   tlOne_y_only_if dx dy p, tlOne_y_revert dx dy p,
   mlOne_x_only_if dx p, mlOne_x_revert dx p,
   mtOne_y_only_if dy p, mtOne_y_revert dy p,
   trOne_y_only_if dx dy p, trOne_y_revert dx dy p,
   blOne_x_only_if dx dy p, blOne_x_revert dx dy p⟩

/-- C5: witness — a middle-left drag on a participant whose snapshot has
diverged from its committed width: the opposite-edge check fails, so the
origin stays and the snapshot reverts. -/
theorem origin_move_validity_witness :
    (mlOne 1 ⟨0, 0, 3, 3, 5, 3⟩).objx = (⟨0, 0, 3, 3, 5, 3⟩ : Part).objx ∧
    (mlOne 1 ⟨0, 0, 3, 3, 5, 3⟩).dragW = (⟨0, 0, 3, 3, 5, 3⟩ : Part).dragW ∧
    (mlOne 1 ⟨0, 0, 3, 3, 5, 3⟩).width = (⟨0, 0, 3, 3, 5, 3⟩ : Part).width :=
  (origin_move_validity ⟨0, 0, 3, 3, 5, 3⟩ 1 0).2.2.2.2.2.1 (by decide) (by decide)

/-! ### C6: per-axis revert behaviour on corner anchors -/

/-- C6 counterexample: in the `TRGrabbed` branch a width snapshot that
falls below 1 is *not* reverted to its pre-delta value — the snapshot
keeps the underflowed value and the committed width is clamped to 1. -/
theorem per_axis_revert_counterexample :
    ((⟨0, 0, 3, 3, 3, 3⟩ : Part).dragW + (-5) < 1) ∧
    (trOne (-5) 0 ⟨0, 0, 3, 3, 3, 3⟩).dragW ≠ (⟨0, 0, 3, 3, 3, 3⟩ : Part).dragW ∧
    (trOne (-5) 0 ⟨0, 0, 3, 3, 3, 3⟩).width ≠ (⟨0, 0, 3, 3, 3, 3⟩ : Part).width := by
  decide

theorem tlOne_w_underflow (dx dy : Int) (p : Part)
    (hw : p.dragW - dx < 1) (hh : ¬(p.dragH - dy < 1)) :
    (tlOne dx dy p).dragW = p.dragW ∧ (tlOne dx dy p).dragH = p.dragH - dy ∧
    (tlOne dx dy p).width = p.width ∧ (tlOne dx dy p).height = p.height ∧
    (tlOne dx dy p).objx = p.objx ∧ (tlOne dx dy p).objy = p.objy := by
  simp only [tlOne]
  split_ifs <;> simp_all

theorem tlOne_h_underflow (dx dy : Int) (p : Part)
    (hw : ¬(p.dragW - dx < 1)) (hh : p.dragH - dy < 1) :
    (tlOne dx dy p).dragH = p.dragH ∧ (tlOne dx dy p).dragW = p.dragW - dx ∧
    (tlOne dx dy p).width = p.width ∧ (tlOne dx dy p).height = p.height ∧
    (tlOne dx dy p).objx = p.objx ∧ (tlOne dx dy p).objy = p.objy := by
  simp only [tlOne]
  split_ifs <;> simp_all

theorem tlOne_both_underflow (dx dy : Int) (p : Part)
    (hw : p.dragW - dx < 1) (hh : p.dragH - dy < 1) :
    tlOne dx dy p = p := by
  simp only [tlOne]
  split_ifs <;> simp_all

theorem trOne_h_underflow (dx dy : Int) (p : Part) (hh : p.dragH - dy < 1) :
    (trOne dx dy p).dragH = p.dragH ∧ (trOne dx dy p).dragW = p.dragW + dx ∧
    (trOne dx dy p).width = p.width ∧ (trOne dx dy p).height = p.height ∧
    (trOne dx dy p).objx = p.objx ∧ (trOne dx dy p).objy = p.objy := by
  simp only [trOne]
  split_ifs <;> simp_all

theorem trOne_w_underflow (dx dy : Int) (p : Part)
    (hh : ¬(p.dragH - dy < 1)) (hw : p.dragW + dx < 1) :
    (trOne dx dy p).width = 1 ∧ (trOne dx dy p).dragW = p.dragW + dx := by
  simp only [trOne]
  split_ifs <;> simp_all

theorem mouseMoveStep_TL_parts (g : Gesture) (cx cy : Int)
    (hg : cx ≠ g.dragstartx ∨ cy ≠ g.dragstarty) :
    (mouseMoveStep Anchor.TL g cx cy).parts =
      g.parts.map (tlOne (cx - g.dragstartx) (cy - g.dragstarty)) := by
  simp only [mouseMoveStep]
  rw [if_pos hg]

/-- C6 (amended): in the `TLGrabbed` branch an axis whose updated snapshot
falls below 1 is reverted to its pre-delta snapshot value, the other
axis's snapshot keeps its delta, and nothing is committed for that
participant in that step; in the `TRGrabbed` branch only the height axis
is guarded and reverted this way, while a width underflow keeps the
underflowed snapshot and commits a width clamped to 1; each participant is
transformed independently by the same per-participant function, so other
participants are unaffected. -/
theorem per_axis_revert_amended (p : Part) (dx dy : Int) :
    (p.dragW - dx < 1 → ¬(p.dragH - dy < 1) →
      (tlOne dx dy p).dragW = p.dragW ∧ (tlOne dx dy p).dragH = p.dragH - dy ∧
      (tlOne dx dy p).width = p.width ∧ (tlOne dx dy p).height = p.height ∧
      (tlOne dx dy p).objx = p.objx ∧ (tlOne dx dy p).objy = p.objy) ∧
    (¬(p.dragW - dx < 1) → p.dragH - dy < 1 →
      (tlOne dx dy p).dragH = p.dragH ∧ (tlOne dx dy p).dragW = p.dragW - dx ∧
      (tlOne dx dy p).width = p.width ∧ (tlOne dx dy p).height = p.height ∧
      (tlOne dx dy p).objx = p.objx ∧ (tlOne dx dy p).objy = p.objy) ∧
    (p.dragW - dx < 1 → p.dragH - dy < 1 → tlOne dx dy p = p) ∧
    (p.dragH - dy < 1 →
      (trOne dx dy p).dragH = p.dragH ∧ (trOne dx dy p).dragW = p.dragW + dx ∧
      (trOne dx dy p).width = p.width ∧ (trOne dx dy p).height = p.height ∧
      (trOne dx dy p).objx = p.objx ∧ (trOne dx dy p).objy = p.objy) ∧
    (¬(p.dragH - dy < 1) → p.dragW + dx < 1 →
      (trOne dx dy p).width = 1 ∧ (trOne dx dy p).dragW = p.dragW + dx) ∧
    (∀ (g : Gesture) (cx cy : Int), cx ≠ g.dragstartx ∨ cy ≠ g.dragstarty →
      (mouseMoveStep Anchor.TL g cx cy).parts =
        g.parts.map (tlOne (cx - g.dragstartx) (cy - g.dragstarty))) :=
  ⟨fun hw hh => tlOne_w_underflow dx dy p hw hh,
   fun hw hh => tlOne_h_underflow dx dy p hw hh,
   fun hw hh => tlOne_both_underflow dx dy p hw hh,
   fun hh => trOne_h_underflow dx dy p hh,
   fun hh hw => trOne_w_underflow dx dy p hh hw,
   fun g cx cy hg => mouseMoveStep_TL_parts g cx cy hg⟩

/-- C6 (amended): witness — a TL width underflow on a 3×3 participant
with snapshots (3, 3) and deltas (3, 1). -/
theorem per_axis_revert_amended_witness :
    (tlOne 3 1 ⟨0, 0, 3, 3, 3, 3⟩).dragW = (⟨0, 0, 3, 3, 3, 3⟩ : Part).dragW ∧
    (tlOne 3 1 ⟨0, 0, 3, 3, 3, 3⟩).dragH = (⟨0, 0, 3, 3, 3, 3⟩ : Part).dragH - 1 ∧
    (tlOne 3 1 ⟨0, 0, 3, 3, 3, 3⟩).width = (⟨0, 0, 3, 3, 3, 3⟩ : Part).width ∧
    (tlOne 3 1 ⟨0, 0, 3, 3, 3, 3⟩).height = (⟨0, 0, 3, 3, 3, 3⟩ : Part).height ∧
    (tlOne 3 1 ⟨0, 0, 3, 3, 3, 3⟩).objx = (⟨0, 0, 3, 3, 3, 3⟩ : Part).objx ∧
    (tlOne 3 1 ⟨0, 0, 3, 3, 3, 3⟩).objy = (⟨0, 0, 3, 3, 3, 3⟩ : Part).objy :=
  (per_axis_revert_amended ⟨0, 0, 3, 3, 3, 3⟩ 3 1).1 (by decide) (by decide)

/-! ### C7: anchor reference advancement -/

/-- C7 counterexample: a `TLGrabbed` step in which both axes commit
(width 3 → 2, origin 2 → 3) yet the stored reference cell does not
advance to the pointer cell (1, 1) — it stays at (0, 0). -/
theorem anchor_advance_counterexample :
    (mouseMoveStep Anchor.TL ⟨0, 0, [⟨2, 2, 3, 3, 3, 3⟩]⟩ 1 1).dragstartx = 0 ∧
    (mouseMoveStep Anchor.TL ⟨0, 0, [⟨2, 2, 3, 3, 3, 3⟩]⟩ 1 1).dragstarty = 0 ∧
    ((mouseMoveStep Anchor.TL ⟨0, 0, [⟨2, 2, 3, 3, 3, 3⟩]⟩ 1 1).parts.headD
      ⟨0, 0, 0, 0, 0, 0⟩).width = 2 ∧
    ((mouseMoveStep Anchor.TL ⟨0, 0, [⟨2, 2, 3, 3, 3, 3⟩]⟩ 1 1).parts.headD
      ⟨0, 0, 0, 0, 0, 0⟩).objx = 3 ∧
    (1 : Int) ≠ 0 := by
  decide

/-- C7 (amended): only the rightward/downward-growing anchors advance the
stored reference, on those axes, unconditionally on entering a step whose
(clamped) pointer cell differs from the stored reference: TR and MR set
`dragstartx`, BL and MB set `dragstarty`, BR sets both; TL, MT and ML
never modify either coordinate (the event coordinates are item-relative,
so moving the origin re-anchors those branches implicitly), and the
untouched coordinate of TR/BL/MB/MR stays unchanged. -/
theorem anchor_advance_amended (g : Gesture) (cx cy : Int) :
    (mouseMoveStep Anchor.TL g cx cy).dragstartx = g.dragstartx ∧
    (mouseMoveStep Anchor.TL g cx cy).dragstarty = g.dragstarty ∧
    (mouseMoveStep Anchor.MT g cx cy).dragstartx = g.dragstartx ∧
    (mouseMoveStep Anchor.MT g cx cy).dragstarty = g.dragstarty ∧
    (mouseMoveStep Anchor.ML g cx cy).dragstartx = g.dragstartx ∧
    (mouseMoveStep Anchor.ML g cx cy).dragstarty = g.dragstarty ∧
    (mouseMoveStep Anchor.TR g cx cy).dragstarty = g.dragstarty ∧
    ((if cx < 0 then 0 else cx) ≠ g.dragstartx ∨ cy ≠ g.dragstarty →
      (mouseMoveStep Anchor.TR g cx cy).dragstartx = (if cx < 0 then 0 else cx)) ∧
    (mouseMoveStep Anchor.BL g cx cy).dragstartx = g.dragstartx ∧
    (cx ≠ g.dragstartx ∨ (if cy < 0 then 0 else cy) ≠ g.dragstarty →
      (mouseMoveStep Anchor.BL g cx cy).dragstarty = (if cy < 0 then 0 else cy)) ∧
    ((if cx < 0 then 0 else cx) ≠ g.dragstartx ∨ (if cy < 0 then 0 else cy) ≠ g.dragstarty →
      (mouseMoveStep Anchor.BR g cx cy).dragstartx = (if cx < 0 then 0 else cx) ∧
      (mouseMoveStep Anchor.BR g cx cy).dragstarty = (if cy < 0 then 0 else cy)) ∧
    (mouseMoveStep Anchor.MB g cx cy).dragstartx = g.dragstartx ∧
    ((if cy < 0 then 0 else cy) ≠ g.dragstarty →
      (mouseMoveStep Anchor.MB g cx cy).dragstarty = (if cy < 0 then 0 else cy)) ∧
    (mouseMoveStep Anchor.MR g cx cy).dragstarty = g.dragstarty ∧
    ((if cx < 0 then 0 else cx) ≠ g.dragstartx →
      (mouseMoveStep Anchor.MR g cx cy).dragstartx = (if cx < 0 then 0 else cx)) := by
  refine ⟨?_, ?_, ?_, ?_, ?_, ?_, ?_, ?_, ?_, ?_, ?_, ?_, ?_, ?_, ?_⟩ <;>
    simp only [mouseMoveStep] <;>
    first
      | (intro hg; rw [if_pos hg]; exact ⟨rfl, rfl⟩)
      | (intro hg; rw [if_pos hg])
      | (split <;> (try split) <;> rfl)

/-- C7 (amended): witness — a BR step from reference (3, 3) to pointer
cell (5, 6) advances the reference to (5, 6). -/
theorem anchor_advance_amended_witness :
    (mouseMoveStep Anchor.BR ⟨3, 3, [⟨0, 0, 3, 3, 3, 3⟩]⟩ 5 6).dragstartx =
        (if (5 : Int) < 0 then 0 else 5) ∧
    (mouseMoveStep Anchor.BR ⟨3, 3, [⟨0, 0, 3, 3, 3, 3⟩]⟩ 5 6).dragstarty =
        (if (6 : Int) < 0 then 0 else 6) :=
  (anchor_advance_amended ⟨3, 3, [⟨0, 0, 3, 3, 3, 3⟩]⟩ 5 6).2.2.2.2.2.2.2.2.2.2.1
    (by decide)

/-! ### C8: undo records for multi-item drags (`itemChange`) -/

/-- The undo-record values produced by the position-change handlers:
`MoveItemUndoAction(item, oldx, oldy, newx, newy)` and
`SimultaneousUndoAction(actions)` from the `undo` module (items are coded
by an id). -/
inductive UndoAction where
  | move (itemId : Nat) (oldx oldy newx newy : Int)
  | simultaneous (acts : List UndoAction)

/-- One selected item as seen by the undo fan-out: its id and its current
committed cell position. -/
structure SelItem where
  id : Nat
  objx : Int
  objy : Int
deriving DecidableEq

/-- The undo-record production of `LevelEditorItem.itemChange` after a
committed discrete cell change `(oldx, oldy) → (newx, newy)` of `self`:
nothing for a `PathEditorLineItem`; one `MoveItemUndoAction` for a
single-item selection; for a larger selection one `SimultaneousUndoAction`
bundling the real delta plus a same-valued no-op record for every *other*
selected item. (The code collects the records in a Python `set`; the
records are fresh objects, so the set holds exactly these members — here
listed with the real delta first and the others in selection order.) -/
def moveUndoActions (isPathEditorLine : Bool) (selection : List SelItem)
    (self : SelItem) (oldx oldy newx newy : Int) : Option UndoAction :=
  if isPathEditorLine then none
  else if selection.length = 1 then some (.move self.id oldx oldy newx newy)
  else if 1 < selection.length then
    some (.simultaneous
      (UndoAction.move self.id oldx oldy newx newy ::
        (selection.filter fun it => it.id ≠ self.id).map
          (fun it => .move it.id it.objx it.objy it.objx it.objy)))
  else none

/-- The undo-record production of the `ObjectItem.itemChange` override:
one `MoveItemUndoAction` for a single-item selection; for a larger
selection the branch is literally `pass` — no record at all. -/
def objectMoveUndoActions (selection : List SelItem)
    (self : SelItem) (oldx oldy newx newy : Int) : Option UndoAction :=
  if selection.length = 1 then some (.move self.id oldx oldy newx newy)
  else if 1 < selection.length then none
  else none

/-- The undo-record production of the `SpriteItem.itemChange` override:
the same structure as the `ObjectItem` override — one
`MoveItemUndoAction` for a single-item selection, and a literal `pass`
for a larger one. -/
def spriteMoveUndoActions (selection : List SelItem)
    (self : SelItem) (oldx oldy newx newy : Int) : Option UndoAction :=
  if selection.length = 1 then some (.move self.id oldx oldy newx newy)
  else if 1 < selection.length then none
  else none

/-- The undo-record production of the `ZoneItem.itemChange` override: it
defers straight to `QGraphicsItem.itemChange` and never touches the undo
stack, so no record is produced for any selection. -/
def zoneMoveUndoActions (selection : List SelItem)
    (self : SelItem) (oldx oldy newx newy : Int) : Option UndoAction :=
  none

/-- C8 counterexample: an `ObjectItem` dragged while two items are
selected produces *no* undo record — not the claimed composite
`SimultaneousUndoAction`. -/
theorem multi_drag_undo_counterexample :
    objectMoveUndoActions [⟨0, 0, 0⟩, ⟨1, 5, 5⟩] ⟨0, 0, 0⟩ 0 0 1 1 = none := by
  rfl

/-- C8 (amended): the composite record belongs to the base
`LevelEditorItem.itemChange` handler alone. When that handler runs for a
non-`PathEditorLineItem` with more than one item selected, it produces
exactly one composite `SimultaneousUndoAction` bundling the real delta
for the dragged item plus a same-valued no-op sub-record for every other
selected item; for a `PathEditorLineItem` it produces nothing. The
`ObjectItem` and `SpriteItem` overrides replace the multi-selection
branch with `pass` and produce no record, and the `ZoneItem` override
bypasses the undo code entirely. -/
theorem multi_drag_undo_amended (selection : List SelItem) (self : SelItem)
    (oldx oldy newx newy : Int) (hsel : 1 < selection.length) :
    moveUndoActions false selection self oldx oldy newx newy =
      some (.simultaneous
        (UndoAction.move self.id oldx oldy newx newy ::
          (selection.filter fun it => it.id ≠ self.id).map
            (fun it => .move it.id it.objx it.objy it.objx it.objy))) ∧
    moveUndoActions true selection self oldx oldy newx newy = none ∧
    objectMoveUndoActions selection self oldx oldy newx newy = none ∧
    spriteMoveUndoActions selection self oldx oldy newx newy = none ∧
    zoneMoveUndoActions selection self oldx oldy newx newy = none := by
  refine ⟨?_, ?_, ?_, ?_, rfl⟩
  · rw [moveUndoActions, if_neg (by simp), if_neg (by omega), if_pos hsel]
  · rw [moveUndoActions, if_pos rfl]
  · rw [objectMoveUndoActions, if_neg (by omega), if_pos hsel]
  · rw [spriteMoveUndoActions, if_neg (by omega), if_pos hsel]

/-- C8 (amended): witness — a two-item selection. -/
theorem multi_drag_undo_amended_witness :
    moveUndoActions false [⟨0, 0, 0⟩, ⟨1, 5, 5⟩] ⟨0, 0, 0⟩ 0 0 1 1 =
      some (.simultaneous
        [UndoAction.move 0 0 0 1 1, UndoAction.move 1 5 5 5 5]) ∧
    moveUndoActions true [⟨0, 0, 0⟩, ⟨1, 5, 5⟩] ⟨0, 0, 0⟩ 0 0 1 1 = none ∧
    objectMoveUndoActions [⟨0, 0, 0⟩, ⟨1, 5, 5⟩] ⟨0, 0, 0⟩ 0 0 1 1 = none ∧
    spriteMoveUndoActions [⟨0, 0, 0⟩, ⟨1, 5, 5⟩] ⟨0, 0, 0⟩ 0 0 1 1 = none ∧
    zoneMoveUndoActions [⟨0, 0, 0⟩, ⟨1, 5, 5⟩] ⟨0, 0, 0⟩ 0 0 1 1 = none := by
  have h := multi_drag_undo_amended [⟨0, 0, 0⟩, ⟨1, 5, 5⟩] ⟨0, 0, 0⟩ 0 0 1 1
    (by decide)
  exact ⟨h.1.trans (by rfl), h.2.1, h.2.2.1, h.2.2.2.1, h.2.2.2.2⟩

/-! ### C9: position snap policy (`itemChange`, `ItemPositionChange`)

Scene positions are Qt reals; we embed them as `ℚ` (every constant in the
snap code is a dyadic rational, so the arithmetic is exact). Python's
`int(...)` truncates toward zero. -/

/-- Python `int()` on a rational: truncation toward zero. -/
def pyInt (q : ℚ) : ℤ := if q < 0 then ⌈q⌉ else ⌊q⌋

theorem pyInt_of_nonneg {q : ℚ} (h : 0 ≤ q) : pyInt q = ⌊q⌋ := by
  rw [pyInt, if_neg (not_lt.mpr h)]

theorem pyInt_of_neg {q : ℚ} (h : q < 0) : pyInt q = ⌈q⌉ := by
  rw [pyInt, if_pos h]

theorem pyInt_intCast (n : ℤ) : pyInt (n : ℚ) = n := by
  rw [pyInt]
  split_ifs
  · exact Int.ceil_intCast n
  · exact Int.floor_intCast n

/-- Truncation of a nonnegative integer plus a fractional part. -/
theorem pyInt_int_add_fract (n : ℤ) (r : ℚ) (hn : 0 ≤ n) (h0 : 0 ≤ r) (h1 : r < 1) :
    pyInt ((n : ℚ) + r) = n := by
  have hq : (0 : ℚ) ≤ (n : ℚ) + r := by
    have : (0 : ℚ) ≤ (n : ℚ) := by exact_mod_cast hn
    linarith
  rw [pyInt_of_nonneg hq, add_comm, Int.floor_add_int,
    Int.floor_eq_zero_iff.mpr ⟨h0, h1⟩, zero_add]

/-- Truncation of an integer plus a nonpositive fractional part greater
than −1 (truncation toward zero rounds it up). -/
theorem pyInt_int_add_neg_fract (n : ℤ) (r : ℚ) (hm : -1 < r) (h0 : r ≤ 0) (hn : n + 1 ≤ 0) :
    pyInt ((n : ℚ) + r) = n := by
  have hq : (n : ℚ) + r < 0 := by
    have hn' : n ≤ -1 := by omega
    have : (n : ℚ) ≤ -1 := by exact_mod_cast hn'
    linarith
  rw [pyInt_of_neg hq, add_comm, Int.ceil_add_int,
    Int.ceil_eq_zero_iff.mpr ⟨hm, h0⟩, zero_add]

/-- The boundary clamp of `itemChange` (`if v < 0: 0`, `if v > bound:
bound`, on one axis). -/
def clamp1 (bound x : ℚ) : ℚ := if x < 0 then 0 else if bound < x then bound else x

/-- Clamping composed with a snap function is idempotent as soon as 0 and
the bound are fixed points of the snap and every nonnegative snapped value
is one. -/
theorem clampSnap_idem (f : ℚ → ℚ) (b : ℚ) (hb : 0 ≤ b) (hf0 : f 0 = 0) (hfb : f b = b)
    (hfix : ∀ x, 0 ≤ f x → f (f x) = f x) (x : ℚ) :
    clamp1 b (f (clamp1 b (f x))) = clamp1 b (f x) := by
  by_cases h1 : f x < 0
  · have hc : clamp1 b (f x) = 0 := by rw [clamp1, if_pos h1]
    rw [hc, hf0, clamp1, if_neg (by norm_num), if_neg (not_lt.mpr hb)]
  · by_cases h2 : b < f x
    · have hc : clamp1 b (f x) = b := by rw [clamp1, if_neg h1, if_pos h2]
      rw [hc, hfb, clamp1, if_neg (not_lt.mpr hb), if_neg (lt_irrefl b)]
    · have hc : clamp1 b (f x) = f x := by rw [clamp1, if_neg h1, if_neg h2]
      rw [hc, hfix x (not_lt.mp h1), hc]

/-- `Alt` held: `int(int((v + 0.75) / 1.5) * 1.5)`. -/
def altSnap (x : ℚ) : ℚ := ((pyInt (((pyInt ((x + 3/4) / (3/2))) : ℚ) * (3/2))) : ℚ)

/-- The default snap: `int(int((v + 6) / 12) * 12)`. -/
def snap8 (x : ℚ) : ℚ := ((pyInt ((x + 6) / 12) * 12 : ℤ) : ℚ)

/-- `ObjectItem.itemChange`: `int((v + 12) / 24) * 24`. -/
def objSnap (x : ℚ) : ℚ := ((pyInt ((x + 12) / 24) * 24 : ℤ) : ℚ)

theorem snap8_fix (x : ℚ) (h0 : 0 ≤ snap8 x) : snap8 (snap8 x) = snap8 x := by
  rw [snap8] at h0 ⊢
  set k := pyInt ((x + 6) / 12) with hk
  have hk0 : 0 ≤ k := by
    have h0' : (0 : ℤ) ≤ k * 12 := by exact_mod_cast h0
    omega
  have harg : (((k * 12 : ℤ) : ℚ) + 6) / 12 = (k : ℚ) + 1/2 := by push_cast; ring
  rw [snap8, harg, pyInt_int_add_fract k (1/2) hk0 (by norm_num) (by norm_num)]

theorem objSnap_fix (x : ℚ) (h0 : 0 ≤ objSnap x) : objSnap (objSnap x) = objSnap x := by
  rw [objSnap] at h0 ⊢
  set k := pyInt ((x + 12) / 24) with hk
  have hk0 : 0 ≤ k := by
    have h0' : (0 : ℤ) ≤ k * 24 := by exact_mod_cast h0
    omega
  have harg : (((k * 24 : ℤ) : ℚ) + 12) / 24 = (k : ℚ) + 1/2 := by push_cast; ring
  rw [objSnap, harg, pyInt_int_add_fract k (1/2) hk0 (by norm_num) (by norm_num)]

theorem altSnap_eq (x : ℚ) :
    altSnap x = ((pyInt (((pyInt ((x + 3/4) / (3/2))) : ℚ) * (3/2))) : ℚ) := rfl

theorem altSnap_fix (x : ℚ) (h0 : 0 ≤ altSnap x) : altSnap (altSnap x) = altSnap x := by
  rw [altSnap_eq x] at h0 ⊢
  set k := pyInt ((x + 3/4) / (3/2)) with hk
  rcases Int.even_or_odd k with ⟨m, hm⟩ | ⟨m, hm⟩
  · have harg : ((k : ℚ) * (3/2)) = ((3 * m : ℤ) : ℚ) := by
      rw [hm]; push_cast; ring
    rw [harg, pyInt_intCast] at h0 ⊢
    have hm0 : 0 ≤ m := by
      have h3 : (0 : ℤ) ≤ 3 * m := by exact_mod_cast h0
      omega
    have h1 : (((3 * m : ℤ) : ℚ) + 3/4) / (3/2) = ((2 * m : ℤ) : ℚ) + 1/2 := by
      push_cast; ring
    have h2 : ((2 * m : ℤ) : ℚ) * (3/2) = ((3 * m : ℤ) : ℚ) := by push_cast; ring
    rw [altSnap_eq, h1, pyInt_int_add_fract (2 * m) (1/2) (by omega) (by norm_num) (by norm_num),
      h2, pyInt_intCast]
  · have harg : ((k : ℚ) * (3/2)) = ((3 * m + 1 : ℤ) : ℚ) + 1/2 := by
      rw [hm]; push_cast; ring
    rw [harg] at h0 ⊢
    by_cases hm0 : 0 ≤ m
    · rw [pyInt_int_add_fract (3 * m + 1) (1/2) (by omega) (by norm_num) (by norm_num)] at h0 ⊢
      have h1 : (((3 * m + 1 : ℤ) : ℚ) + 3/4) / (3/2) = ((2 * m + 1 : ℤ) : ℚ) + 1/6 := by
        push_cast; ring
      have h2 : ((2 * m + 1 : ℤ) : ℚ) * (3/2) = ((3 * m + 1 : ℤ) : ℚ) + 1/2 := by
        push_cast; ring
    
      rw [altSnap_eq, h1,
        pyInt_int_add_fract (2 * m + 1) (1/6) (by omega) (by norm_num) (by norm_num), h2,
        pyInt_int_add_fract (3 * m + 1) (1/2) (by omega) (by norm_num) (by norm_num)]
    · exfalso
      push_neg at hm0
      have harg2 : ((3 * m + 1 : ℤ) : ℚ) + 1/2 = ((3 * m + 2 : ℤ) : ℚ) + (-1/2) := by
        push_cast; ring
      rw [harg2,
        pyInt_int_add_neg_fract (3 * m + 2) (-1/2) (by norm_num) (by norm_num) (by omega)] at h0
      have h3 : (0 : ℤ) ≤ 3 * m + 2 := by exact_mod_cast h0
      omega

theorem altSnap_int_fixed (n m : ℤ) (hm : 0 ≤ m)
    (h1 : ((n : ℚ) + 3/4) / (3/2) = (m : ℚ) + 1/2)
    (h2 : ((m : ℤ) : ℚ) * (3/2) = ((n : ℤ) : ℚ)) :
    altSnap ((n : ℚ)) = (n : ℚ) := by
  rw [altSnap_eq, h1, pyInt_int_add_fract m (1/2) hm (by norm_num) (by norm_num), h2,
    pyInt_intCast]

theorem altSnap_zero : altSnap 0 = 0 := by
  have h := altSnap_int_fixed 0 0 le_rfl (by push_cast; norm_num) (by push_cast; norm_num)
  push_cast at h
  exact h

theorem altSnap_24552 : altSnap 24552 = 24552 := by
  have h := altSnap_int_fixed 24552 16368 (by norm_num) (by push_cast; norm_num)
    (by push_cast; norm_num)
  push_cast at h
  exact h

theorem altSnap_12264 : altSnap 12264 = 12264 := by
  have h := altSnap_int_fixed 12264 8176 (by norm_num) (by push_cast; norm_num)
    (by push_cast; norm_num)
  push_cast at h
  exact h

theorem snap8_int_fixed (n m : ℤ) (hm : 0 ≤ m)
    (h1 : ((n : ℚ) + 6) / 12 = (m : ℚ) + 1/2) (h2 : m * 12 = n) :
    snap8 ((n : ℚ)) = (n : ℚ) := by
  rw [snap8, h1, pyInt_int_add_fract m (1/2) hm (by norm_num) (by norm_num), h2]

theorem snap8_zero : snap8 0 = 0 := by
  have h := snap8_int_fixed 0 0 le_rfl (by push_cast; norm_num) (by norm_num)
  push_cast at h
  exact h

theorem snap8_24552 : snap8 24552 = 24552 := by
  have h := snap8_int_fixed 24552 2046 (by norm_num) (by push_cast; norm_num) (by norm_num)
  push_cast at h
  exact h

theorem snap8_12264 : snap8 12264 = 12264 := by
  have h := snap8_int_fixed 12264 1022 (by norm_num) (by push_cast; norm_num) (by norm_num)
  push_cast at h
  exact h

theorem objSnap_int_fixed (n m : ℤ) (hm : 0 ≤ m)
    (h1 : ((n : ℚ) + 12) / 24 = (m : ℚ) + 1/2) (h2 : m * 24 = n) :
    objSnap ((n : ℚ)) = (n : ℚ) := by
  rw [objSnap, h1, pyInt_int_add_fract m (1/2) hm (by norm_num) (by norm_num), h2]

theorem objSnap_zero : objSnap 0 = 0 := by
  have h := objSnap_int_fixed 0 0 le_rfl (by push_cast; norm_num) (by norm_num)
  push_cast at h
  exact h

theorem objSnap_24576 : objSnap 24576 = 24576 := by
  have h := objSnap_int_fixed 24576 1024 (by norm_num) (by push_cast; norm_num) (by norm_num)
  push_cast at h
  exact h

theorem objSnap_12288 : objSnap 12288 = 12288 := by
  have h := objSnap_int_fixed 12288 512 (by norm_num) (by push_cast; norm_num) (by norm_num)
  push_cast at h
  exact h

/-- Evaluate `pyInt` on a negative rational by bracketing. -/
theorem pyInt_eval_neg (q : ℚ) (z : ℤ) (h1 : (z : ℚ) - 1 < q) (h2 : q ≤ (z : ℚ))
    (hq : q < 0) : pyInt q = z := by
  rw [pyInt_of_neg hq]
  exact Int.ceil_eq_iff.mpr ⟨h1, h2⟩

/-- Evaluate `pyInt` on a nonnegative rational by bracketing. -/
theorem pyInt_eval_nonneg (q : ℚ) (z : ℤ) (h1 : (z : ℚ) ≤ q) (h2 : q < (z : ℚ) + 1)
    (hq : 0 ≤ q) : pyInt q = z := by
  rw [pyInt_of_nonneg hq]
  exact Int.floor_eq_iff.mpr ⟨h1, h2⟩

/-- The drag-offset adjustment of the 8-unit multi-select branch:
`if dragoffsetx < -12: dragoffsetx += 12`, then
`if dragoffsetx == 0: dragoffsetx = -12`. -/
def adjOff8 (d0 : ℤ) : ℤ :=
  let d1 := if d0 < -12 then d0 + 12 else d0
  if d1 = 0 then -12 else d1

/-- The drag-offset adjustment of the 24-unit object-aligned branch:
`if dragoffsetx == 0: dragoffsetx = -24` (no `< -12` correction). -/
def adjOff24 (d0 : ℤ) : ℤ := if d0 = 0 then -24 else d0

/-- `referenceX = int((v + 6 + 12 + off) / 12) * 12;
v = referenceX - (12 + off)`. -/
def offset8 (off : ℤ) (x : ℚ) : ℚ :=
  ((pyInt ((x + 6 + 12 + (off : ℚ)) / 12) * 12 - (12 + off) : ℤ) : ℚ)

/-- `referenceX = int((v + 12 + 24 + off) / 24) * 24;
v = referenceX - (24 + off)`. -/
def offset24 (off : ℤ) (x : ℚ) : ℚ :=
  ((pyInt ((x + 12 + 24 + (off : ℚ)) / 24) * 24 - (24 + off) : ℤ) : ℚ)

/-- The ambient state read by `LevelEditorItem.itemChange` when selecting
a snap granularity: the global override, `self.autoPosChange`, the Alt
modifier, whether any `ObjectItem` is selected, whether `self` is
selected, the selection size, and `self.dragoffsetx/y`. -/
structure SnapCtx where
  overrideSnapping : Bool
  autoPosChange : Bool
  altHeld : Bool
  objectsSelected : Bool
  isSelected : Bool
  selCount : Nat
  dragoffsetx : ℚ
  dragoffsety : ℚ

/-- The snap branch selection of `LevelEditorItem.itemChange` on one axis
(`off` is that axis's drag offset). -/
def snapAxis (ctx : SnapCtx) (off : ℚ) (x : ℚ) : ℚ :=
  if ¬ctx.overrideSnapping ∧ ¬ctx.autoPosChange then
    if ctx.altHeld then altSnap x
    else if ¬ctx.objectsSelected ∧ ctx.isSelected ∧ 1 < ctx.selCount then
      offset8 (adjOff8 (pyInt off)) x
    else if ctx.objectsSelected ∧ ctx.isSelected then
      offset24 (adjOff24 (pyInt off)) x
    else snap8 x
  else x

def snapX (ctx : SnapCtx) (x : ℚ) : ℚ := snapAxis ctx ctx.dragoffsetx x

def snapY (ctx : SnapCtx) (y : ℚ) : ℚ := snapAxis ctx ctx.dragoffsety y

/-- The whole `ItemPositionChange` position policy of
`LevelEditorItem.itemChange`: snap each axis, then clamp into the level
bounds (24552 × 12264 scene units). -/
def itemChangePos (ctx : SnapCtx) (p : ℚ × ℚ) : ℚ × ℚ :=
  (clamp1 24552 (snapX ctx p.1), clamp1 12264 (snapY ctx p.2))

/-- The `ItemPositionChange` policy of the `ObjectItem.itemChange`
override: snap to whole 24-unit blocks, then clamp into 24576 × 12288. -/
def objItemChangePos (p : ℚ × ℚ) : ℚ × ℚ :=
  (clamp1 24576 (objSnap p.1), clamp1 12288 (objSnap p.2))

/-- Under any configuration that avoids the two offset-based branches, the
axis snap is the identity, the Alt fine snap, or the plain 8-unit snap. -/
theorem snapAxis_offsetFree (ctx : SnapCtx) (off : ℚ)
    (hctx : ctx.overrideSnapping = true ∨ ctx.autoPosChange = true ∨ ctx.altHeld = true ∨
      ctx.isSelected = false ∨ (ctx.objectsSelected = false ∧ ctx.selCount ≤ 1)) :
    (∀ x, snapAxis ctx off x = x) ∨ (∀ x, snapAxis ctx off x = altSnap x) ∨
    (∀ x, snapAxis ctx off x = snap8 x) := by
  by_cases ho : ctx.overrideSnapping
  · exact Or.inl fun x => by rw [snapAxis, if_neg fun hc => hc.1 ho]
  by_cases ha : ctx.autoPosChange
  · exact Or.inl fun x => by rw [snapAxis, if_neg fun hc => hc.2 ha]
  by_cases halt : ctx.altHeld
  · exact Or.inr (Or.inl fun x => by rw [snapAxis, if_pos ⟨ho, ha⟩, if_pos halt])
  have hsel : ctx.isSelected = false ∨ (ctx.objectsSelected = false ∧ ctx.selCount ≤ 1) := by
    rcases hctx with h | h | h | h | h
    · exact absurd h ho
    · exact absurd h ha
    · exact absurd h halt
    · exact Or.inl h
    · exact Or.inr h
  have hno2 : ¬((¬ctx.objectsSelected) ∧ ctx.isSelected ∧ 1 < ctx.selCount) := by
    rcases hsel with h | ⟨h1, h2⟩
    · intro hc
      rw [h] at hc
      exact Bool.false_ne_true hc.2.1
    · intro hc
      omega
  have hno3 : ¬(ctx.objectsSelected ∧ ctx.isSelected) := by
    rcases hsel with h | ⟨h1, h2⟩
    · intro hc
      rw [h] at hc
      exact Bool.false_ne_true hc.2
    · intro hc
      rw [h1] at hc
      exact Bool.false_ne_true hc.1
  exact Or.inr (Or.inr fun x => by
    rw [snapAxis, if_pos ⟨ho, ha⟩, if_neg halt, if_neg hno2, if_neg hno3])

/-- C9 counterexample context: two items selected, no objects among them,
drag offsets −5 — the 8-unit offset branch is active. -/
def snapCtx0 : SnapCtx :=
  { overrideSnapping := false, autoPosChange := false, altHeld := false,
    objectsSelected := false, isSelected := true, selCount := 2,
    dragoffsetx := -5, dragoffsety := -5 }

theorem snapCtx0_snapAxis (x : ℚ) :
    snapAxis snapCtx0 (-5 : ℚ) x = offset8 (-5) x := by
  rw [snapAxis, if_pos (by decide), if_neg (by decide), if_pos (by decide),
    show pyInt (-5 : ℚ) = (-5 : ℤ) from by
      rw [show (-5 : ℚ) = ((-5 : ℤ) : ℚ) by norm_num, pyInt_intCast],
    show adjOff8 (-5) = (-5 : ℤ) from by decide]

theorem snapCtx0_first : itemChangePos snapCtx0 ((-100 : ℚ), (-100 : ℚ)) = (0, 0) := by
  have hx : snapAxis snapCtx0 (-5 : ℚ) (-100) = (-91 : ℚ) := by
    rw [snapCtx0_snapAxis, offset8,
      show ((-100 : ℚ) + 6 + 12 + ((-5 : ℤ) : ℚ)) / 12 = (-87 : ℚ) / 12 from by
        push_cast; ring,
      pyInt_eval_neg ((-87 : ℚ) / 12) (-7) (by norm_num) (by norm_num) (by norm_num)]
    norm_num
  show (clamp1 24552 (snapAxis snapCtx0 (-5 : ℚ) (-100)),
    clamp1 12264 (snapAxis snapCtx0 (-5 : ℚ) (-100))) = (0, 0)
  rw [hx, clamp1, if_pos (by norm_num), clamp1, if_pos (by norm_num)]

theorem snapCtx0_second : itemChangePos snapCtx0 ((0 : ℚ), (0 : ℚ)) = (5, 5) := by
  have hx : snapAxis snapCtx0 (-5 : ℚ) (0 : ℚ) = (5 : ℚ) := by
    rw [snapCtx0_snapAxis, offset8,
      show ((0 : ℚ) + 6 + 12 + ((-5 : ℤ) : ℚ)) / 12 = (13 : ℚ) / 12 from by
        push_cast; ring,
      pyInt_eval_nonneg ((13 : ℚ) / 12) 1 (by norm_num) (by norm_num) (by norm_num)]
    norm_num
  show (clamp1 24552 (snapAxis snapCtx0 (-5 : ℚ) 0),
    clamp1 12264 (snapAxis snapCtx0 (-5 : ℚ) 0)) = (5, 5)
  rw [hx, clamp1, if_neg (by norm_num), if_neg (by norm_num), clamp1,
    if_neg (by norm_num), if_neg (by norm_num)]

/-- C9 counterexample: with two non-object items selected and a drag
offset of −5, the snapped-and-clamped position of (−100, −100) is (0, 0),
but applying the policy again yields (5, 5) — the snap policy is not a
projection once the bounds clamp interacts with an offset branch. -/
theorem snap_idempotence_counterexample :
    itemChangePos snapCtx0 (itemChangePos snapCtx0 ((-100 : ℚ), (-100 : ℚ))) ≠
      itemChangePos snapCtx0 ((-100 : ℚ), (-100 : ℚ)) := by
  rw [snapCtx0_first, snapCtx0_second]
  intro hc
  rw [Prod.mk.injEq] at hc
  exact absurd hc.1 (by norm_num)

/-- C9 (amended): the position policy is a projection in every
configuration that avoids the two offset-based branches — snapping
overridden or automatic, Alt held, the item not selected, or a
single-item / no-object selection — and the `ObjectItem` 24-unit policy
is a projection unconditionally. -/
theorem snap_idempotence_amended (ctx : SnapCtx)
    (hctx : ctx.overrideSnapping = true ∨ ctx.autoPosChange = true ∨ ctx.altHeld = true ∨
      ctx.isSelected = false ∨ (ctx.objectsSelected = false ∧ ctx.selCount ≤ 1))
    (p q : ℚ × ℚ) :
    itemChangePos ctx (itemChangePos ctx p) = itemChangePos ctx p ∧
    objItemChangePos (objItemChangePos q) = objItemChangePos q := by
  have hcomp : ∀ (f : ℚ → ℚ) (b : ℚ), 0 ≤ b → f 0 = 0 → f b = b →
      (∀ x, 0 ≤ f x → f (f x) = f x) → ∀ (s : ℚ → ℚ), (∀ x, s x = f x) →
      ∀ x, clamp1 b (s (clamp1 b (s x))) = clamp1 b (s x) := by
    intro f b hb h0 hbf hfix s hs x
    rw [hs x, hs (clamp1 b (f x))]
    exact clampSnap_idem f b hb h0 hbf hfix x
  constructor
  · have hX := snapAxis_offsetFree ctx ctx.dragoffsetx hctx
    have hY := snapAxis_offsetFree ctx ctx.dragoffsety hctx
    refine Prod.ext ?_ ?_
    · show clamp1 24552 (snapX ctx (clamp1 24552 (snapX ctx p.1))) =
        clamp1 24552 (snapX ctx p.1)
      rcases hX with h | h | h
      · exact hcomp (fun x => x) 24552 (by norm_num) rfl rfl (fun x _ => rfl) _ h _
      · exact hcomp altSnap 24552 (by norm_num) altSnap_zero altSnap_24552
          (fun x hx0 => altSnap_fix x hx0) _ h _
      · exact hcomp snap8 24552 (by norm_num) snap8_zero snap8_24552
          (fun x hx0 => snap8_fix x hx0) _ h _
    · show clamp1 12264 (snapY ctx (clamp1 12264 (snapY ctx p.2))) =
        clamp1 12264 (snapY ctx p.2)
      rcases hY with h | h | h
      · exact hcomp (fun x => x) 12264 (by norm_num) rfl rfl (fun x _ => rfl) _ h _
      · exact hcomp altSnap 12264 (by norm_num) altSnap_zero altSnap_12264
          (fun x hx0 => altSnap_fix x hx0) _ h _
      · exact hcomp snap8 12264 (by norm_num) snap8_zero snap8_12264
          (fun x hx0 => snap8_fix x hx0) _ h _
  · refine Prod.ext ?_ ?_
    · exact clampSnap_idem objSnap 24576 (by norm_num) objSnap_zero objSnap_24576
        (fun x hx0 => objSnap_fix x hx0) _
    · exact clampSnap_idem objSnap 12288 (by norm_num) objSnap_zero objSnap_12288
        (fun x hx0 => objSnap_fix x hx0) _

/-- C9 (amended): witness — with the snapping override set the policy is
idempotent, and so is the `ObjectItem` policy. -/
theorem snap_idempotence_amended_witness :
    itemChangePos ⟨true, false, false, false, false, 0, 0, 0⟩
        (itemChangePos ⟨true, false, false, false, false, 0, 0, 0⟩ ((7 : ℚ), (8 : ℚ))) =
      itemChangePos ⟨true, false, false, false, false, 0, 0, 0⟩ ((7 : ℚ), (8 : ℚ)) ∧
    objItemChangePos (objItemChangePos ((30 : ℚ), (40 : ℚ))) =
      objItemChangePos ((30 : ℚ), (40 : ℚ)) :=
  snap_idempotence_amended ⟨true, false, false, false, false, 0, 0, 0⟩
    (Or.inl rfl) ((7 : ℚ), (8 : ℚ)) ((30 : ℚ), (40 : ℚ))

end Reggie
